import Mathlib

/-!
Verification of the Astro-Shiba-Pop pricing engine.

This file gives a shallow embedding, in Lean 4, of the numeric core of the
repository (the AMM pair math, the K-invariant validator, the TWAP oracle,
the sac-factory bonding curve and its buy/sell entry points, and the
token-factory multi-shape bonding curve), together with theorems settling
the specification claims about that code.

Machine integers: the contracts compute in Rust `i128`.  Checked operations
(`checked_add` …) are modelled as `Option Int` values that are `none` exactly
when the Rust operation returns `None` (result outside the `i128` range,
division by zero, or `MIN / -1`).  Unchecked Rust arithmetic (the legacy
`math.rs`, compiled in release mode) wraps, which is modelled by `wrap128`.
Rust `/` on `i128` truncates toward zero, which is `Int.tdiv`.
-/

/-- Largest `i128` value, `2^127 - 1`. -/
def I128_MAX : Int := 170141183460469231731687303715884105727

/-- Smallest `i128` value, `-2^127`. -/
def I128_MIN : Int := -170141183460469231731687303715884105728

/-- Largest `i128` value as a natural number. -/
def I128MAXn : Nat := 170141183460469231731687303715884105727

/-- `a` fits in `i128`. -/
def inI128 (a : Int) : Prop := I128_MIN ≤ a ∧ a ≤ I128_MAX

instance (a : Int) : Decidable (inI128 a) := by
  unfold inI128
  infer_instance

/-- Rust `i128::checked_add`. -/
def checked_add (a b : Int) : Option Int :=
  if inI128 (a + b) then some (a + b) else none

/-- Rust `i128::checked_sub`. -/
def checked_sub (a b : Int) : Option Int :=
  if inI128 (a - b) then some (a - b) else none

/-- Rust `i128::checked_mul`. -/
def checked_mul (a b : Int) : Option Int :=
  if inI128 (a * b) then some (a * b) else none

/-- Rust `i128::checked_div` (truncated division; `None` on division by
zero or on the overflowing `MIN / -1`). -/
def checked_div (a b : Int) : Option Int :=
  if b = 0 then none
  else if a = I128_MIN ∧ b = -1 then none
  else some (a.tdiv b)

/-- Rust release-mode wrapping of an intermediate value into `i128`. -/
def wrap128 (a : Int) : Int :=
  (a + 170141183460469231731687303715884105728) % (2 ^ 128)
    - 170141183460469231731687303715884105728

/-- Rust's `Option::ok_or`. -/
def okOr {ε α : Type} (o : Option α) (e : ε) : Except ε α :=
  match o with
  | some v => .ok v
  | none => .error e

instance instDecEqExcept {ε α : Type} [DecidableEq ε] [DecidableEq α] :
    DecidableEq (Except ε α) := fun x y =>
  match x, y with
  | .ok v, .ok w =>
      if h : v = w then isTrue (by rw [h])
      else isFalse (by intro hc; cases hc; exact h rfl)
  | .error v, .error w =>
      if h : v = w then isTrue (by rw [h])
      else isFalse (by intro hc; cases hc; exact h rfl)
  | .ok _, .error _ => isFalse (by intro hc; cases hc)
  | .error _, .ok _ => isFalse (by intro hc; cases hc)

theorem checked_add_eq_some {a b c : Int} :
    checked_add a b = some c ↔ inI128 (a + b) ∧ c = a + b := by
  unfold checked_add
  split <;> simp_all [eq_comm]

theorem checked_sub_eq_some {a b c : Int} :
    checked_sub a b = some c ↔ inI128 (a - b) ∧ c = a - b := by
  unfold checked_sub
  split <;> simp_all [eq_comm]

theorem checked_mul_eq_some {a b c : Int} :
    checked_mul a b = some c ↔ inI128 (a * b) ∧ c = a * b := by
  unfold checked_mul
  split <;> simp_all [eq_comm]

theorem checked_add_of_inI128 {a b : Int} (h : inI128 (a + b)) :
    checked_add a b = some (a + b) := by
  unfold checked_add
  simp [h]

theorem checked_sub_of_inI128 {a b : Int} (h : inI128 (a - b)) :
    checked_sub a b = some (a - b) := by
  unfold checked_sub
  simp [h]

theorem checked_mul_of_inI128 {a b : Int} (h : inI128 (a * b)) :
    checked_mul a b = some (a * b) := by
  unfold checked_mul
  simp [h]

theorem checked_div_pos {a b : Int} (hb : 0 < b) :
    checked_div a b = some (a.tdiv b) := by
  unfold checked_div
  have h1 : b ≠ 0 := by omega
  have h2 : ¬(a = I128_MIN ∧ b = -1) := by
    intro ⟨h3, h4⟩
    omega
  simp [h1, h2]

theorem wrap128_eq_self {a : Int} (h : inI128 a) : wrap128 a = a := by
  unfold wrap128
  unfold inI128 I128_MIN I128_MAX at h
  have hlt : a + 170141183460469231731687303715884105728 < 2 ^ 128 := by omega
  have hge : 0 ≤ a + 170141183460469231731687303715884105728 := by omega
  rw [Int.emod_eq_of_lt hge hlt]
  ring

/-- For nonnegative operands Rust's truncated `i128` division agrees with
floor division. -/
theorem tdiv_eq_ediv_nonneg {a b : Int} (ha : 0 ≤ a) (hb : 0 ≤ b) :
    a.tdiv b = a / b :=
  Int.tdiv_eq_ediv ha hb

namespace AMM

/-- `contracts/amm-pair/src/errors.rs`: the `Error` enum. -/
inductive Error
  | AlreadyInitialized
  | NotInitialized
  | InvalidTokenPair
  | InsufficientLiquidityMinted
  | InsufficientLiquidity
  | InsufficientLPBalance
  | InsufficientToken0Amount
  | InsufficientToken1Amount
  | InsufficientInputAmount
  | InsufficientOutputAmount
  | InsufficientReserve
  | SlippageExceeded
  | PriceImpactTooHigh
  | InvalidToken
  | InvalidAmount
  | KInvariantViolated
  | Reentrancy
  | ContractPaused
  | Unauthorized
  | Overflow
  | Underflow
  | DivisionByZero
  | InvalidFlashLoan
  | FlashLoanNotRepaid
  deriving DecidableEq, Repr

namespace Validation

/-- `contracts/amm-pair/src/validation.rs`: `MINIMUM_LIQUIDITY`. -/
def MINIMUM_LIQUIDITY : Int := 1000

/-- `contracts/amm-pair/src/validation.rs`: `validate_k_invariant`.
Checks `k_after < k_before` only; equal products pass. -/
def validate_k_invariant (reserve_0_before reserve_1_before
    reserve_0_after reserve_1_after : Int) : Except Error Unit :=
  match okOr (checked_mul reserve_0_before reserve_1_before) Error.Overflow with
  | .error e => .error e
  | .ok k_before =>
  match okOr (checked_mul reserve_0_after reserve_1_after) Error.Overflow with
  | .error e => .error e
  | .ok k_after =>
  if k_after < k_before then .error .KInvariantViolated
  else .ok ()

end Validation

namespace MathV2

/-- `math_v2.rs`: `DEFAULT_FEE_BPS`. -/
def DEFAULT_FEE_BPS : Int := 30

/-- `math_v2.rs`: `FEE_DENOMINATOR`. -/
def FEE_DENOMINATOR : Int := 10000

/-- `math_v2.rs`: `MAX_PRICE_IMPACT_BPS`. -/
def MAX_PRICE_IMPACT_BPS : Int := 500

/-- The `while x < z` loop of `math_v2.rs::sqrt`, on the nonnegative values
reached after the sign guard (so natural numbers).  The body is
`z = x; x = (y.checked_div(x)? + x).checked_add …` — in the source:
`y_div_x = y.checked_div(x)`, then `x = y_div_x.checked_add(x)?.checked_div(2)?`.
`checked_div` by the constant `2` cannot fail and is written as plain division. -/
def sqrtLoop (y x z : Nat) : Except Error Nat :=
  if _h : x < z then
    if x = 0 then .error .DivisionByZero
    else
      let y_div_x := y / x
      if y_div_x + x ≤ I128MAXn then sqrtLoop y ((y_div_x + x) / 2) x
      else .error .Overflow
  else .ok z
termination_by z

/-- `math_v2.rs`: `sqrt` (Babylonian method with overflow protection).
Negative input fails `InvalidAmount`; `y < 4` returns `0` or `1`; otherwise
the seed is `x₀ = y/2 + 1`, `z₀ = y` (the seed additions cannot overflow). -/
def sqrt (y : Int) : Except Error Int :=
  if y < 0 then .error .InvalidAmount
  else if y < 4 then .ok (if y = 0 then 0 else 1)
  else
    match sqrtLoop y.toNat (y.toNat / 2 + 1) y.toNat with
    | .ok z => .ok (z : Int)
    | .error e => .error e

/-- `math_v2.rs`: `quote` with overflow protection. -/
def quote (amount_a reserve_a reserve_b : Int) : Except Error Int :=
  if amount_a ≤ 0 then .error .InsufficientInputAmount
  else if reserve_a ≤ 0 ∨ reserve_b ≤ 0 then .error .InsufficientLiquidity
  else
    match okOr (checked_mul amount_a reserve_b) Error.Overflow with
    | .error e => .error e
    | .ok product => okOr (checked_div product reserve_a) Error.DivisionByZero

/-- `math_v2.rs`: `get_amount_out` with overflow protection. -/
def get_amount_out (amount_in reserve_in reserve_out : Int)
    (fee_bps : Option Int) : Except Error Int :=
  if amount_in ≤ 0 then .error .InsufficientInputAmount
  else if reserve_in ≤ 0 ∨ reserve_out ≤ 0 then .error .InsufficientLiquidity
  else
    let fee := fee_bps.getD DEFAULT_FEE_BPS
    match okOr (checked_sub FEE_DENOMINATOR fee) Error.Underflow with
    | .error e => .error e
    | .ok fee_multiplier =>
    match okOr (checked_mul amount_in fee_multiplier) Error.Overflow with
    | .error e => .error e
    | .ok amount_in_with_fee =>
    match okOr (checked_mul amount_in_with_fee reserve_out) Error.Overflow with
    | .error e => .error e
    | .ok numerator =>
    match okOr (checked_mul reserve_in FEE_DENOMINATOR) Error.Overflow with
    | .error e => .error e
    | .ok reserve_product =>
    match okOr (checked_add reserve_product amount_in_with_fee) Error.Overflow with
    | .error e => .error e
    | .ok denominator =>
    okOr (checked_div numerator denominator) Error.DivisionByZero

/-- `math_v2.rs`: `get_amount_in` with overflow protection. -/
def get_amount_in (amount_out reserve_in reserve_out : Int)
    (fee_bps : Option Int) : Except Error Int :=
  if amount_out ≤ 0 then .error .InsufficientOutputAmount
  else if reserve_in ≤ 0 ∨ reserve_out ≤ 0 then .error .InsufficientLiquidity
  else if reserve_out ≤ amount_out then .error .InsufficientReserve
  else
    let fee := fee_bps.getD DEFAULT_FEE_BPS
    match okOr (checked_sub FEE_DENOMINATOR fee) Error.Underflow with
    | .error e => .error e
    | .ok fee_multiplier =>
    match okOr (checked_mul reserve_in amount_out) Error.Overflow with
    | .error e => .error e
    | .ok reserve_product =>
    match okOr (checked_mul reserve_product FEE_DENOMINATOR) Error.Overflow with
    | .error e => .error e
    | .ok numerator =>
    match okOr (checked_sub reserve_out amount_out) Error.Underflow with
    | .error e => .error e
    | .ok reserve_diff =>
    match okOr (checked_mul reserve_diff fee_multiplier) Error.Overflow with
    | .error e => .error e
    | .ok denominator =>
    match okOr (checked_div numerator denominator) Error.DivisionByZero with
    | .error e => .error e
    | .ok base_amount =>
    okOr (checked_add base_amount 1) Error.Overflow

end MathV2

end AMM

namespace AMM

namespace Math

/-- `contracts/amm-pair/src/math.rs` panics with a message instead of
returning an error; each panic site gets one constructor.  The two division
constructors are the implicit `i128` division panics (divide by zero and
`MIN / -1`), which abort even in release builds. -/
inductive Abort
  | insufficientAmount
  | insufficientLiquidity
  | insufficientInputAmount
  | insufficientOutputAmount
  | insufficientReserve
  | divisionByZero
  | divisionOverflow
  | transactionExpired
  | invalidToken
  | kInvariantViolated
  deriving DecidableEq, Repr

/-- `math.rs`: `FEE_BPS`. -/
def FEE_BPS : Int := 30

/-- `math.rs`: `FEE_DENOMINATOR`. -/
def FEE_DENOMINATOR : Int := 10000

/-- Rust release-mode `/` on `i128`: wrapping is never applied to division,
which instead panics on a zero divisor or on `MIN / -1`. -/
def rustDiv (a b : Int) : Except Abort Int :=
  if b = 0 then .error .divisionByZero
  else if a = I128_MIN ∧ b = -1 then .error .divisionOverflow
  else .ok (a.tdiv b)

/-- `math.rs`: `get_amount_out`, unchecked release-mode arithmetic
(multiplications and additions wrap). -/
def get_amount_out (amount_in reserve_in reserve_out : Int) : Except Abort Int :=
  if amount_in ≤ 0 then .error .insufficientInputAmount
  else if reserve_in ≤ 0 ∨ reserve_out ≤ 0 then .error .insufficientLiquidity
  else
    let fee_multiplier := FEE_DENOMINATOR - FEE_BPS
    let amount_in_with_fee := wrap128 (amount_in * fee_multiplier)
    let numerator := wrap128 (amount_in_with_fee * reserve_out)
    let denominator := wrap128 (wrap128 (reserve_in * FEE_DENOMINATOR) + amount_in_with_fee)
    rustDiv numerator denominator

/-- `math.rs`: `get_amount_in`, unchecked release-mode arithmetic. -/
def get_amount_in (amount_out reserve_in reserve_out : Int) : Except Abort Int :=
  if amount_out ≤ 0 then .error .insufficientOutputAmount
  else if reserve_in ≤ 0 ∨ reserve_out ≤ 0 then .error .insufficientLiquidity
  else if reserve_out ≤ amount_out then .error .insufficientReserve
  else
    let fee_multiplier := FEE_DENOMINATOR - FEE_BPS
    let numerator := wrap128 (wrap128 (reserve_in * amount_out) * FEE_DENOMINATOR)
    let denominator := wrap128 (wrap128 (reserve_out - amount_out) * fee_multiplier)
    match rustDiv numerator denominator with
    | .error e => .error e
    | .ok q => .ok (wrap128 (q + 1))

end Math

namespace Pair

/-- `contracts/amm-pair/src/storage.rs`: `PairInfo`.  Addresses are opaque
identifiers, modelled as `Nat`. -/
structure PairInfo where
  token_0 : Nat
  token_1 : Nat
  factory : Nat
  fee_to : Nat
  reserve_0 : Int
  reserve_1 : Int
  total_supply : Int
  k_last : Int
  deriving DecidableEq, Repr

/-- `contracts/amm-pair/src/lib.rs`: `swap`.  The ledger timestamp is the
`now` argument; the token transfers move balances of the two external token
contracts and do not touch `PairInfo`, so they do not appear in the state.
Release-mode `i128` arithmetic wraps (`wrap128`); `math::get_amount_out`
panics propagate. -/
def swap (p : PairInfo) (now : Nat) (amount_in amount_out_min : Int)
    (token_in : Nat) (deadline : Nat) : Except Math.Abort (Int × PairInfo) :=
  if deadline < now then .error .transactionExpired
  else if amount_in ≤ 0 then .error .insufficientInputAmount
  else
    match (if token_in = p.token_0 then some (p.reserve_0, p.reserve_1, p.token_1)
           else if token_in = p.token_1 then some (p.reserve_1, p.reserve_0, p.token_0)
           else none) with
    | none => .error .invalidToken
    | some (reserve_in, reserve_out, _token_out) =>
      let k_old := wrap128 (reserve_in * reserve_out)
      match Math.get_amount_out amount_in reserve_in reserve_out with
      | .error e => .error e
      | .ok amount_out =>
        if amount_out < amount_out_min then .error .insufficientOutputAmount
        else
          let p1 :=
            if token_in = p.token_0 then
              { p with reserve_0 := wrap128 (p.reserve_0 + amount_in),
                       reserve_1 := wrap128 (p.reserve_1 - amount_out) }
            else
              { p with reserve_1 := wrap128 (p.reserve_1 + amount_in),
                       reserve_0 := wrap128 (p.reserve_0 - amount_out) }
          let k_new := wrap128 (p1.reserve_0 * p1.reserve_1)
          if k_new ≤ k_old then .error .kInvariantViolated
          else .ok (amount_out, p1)

end Pair

/-- `contracts/amm-pair/src/oracle.rs`: `OBSERVATION_BUFFER_SIZE`. -/
def OBSERVATION_BUFFER_SIZE : Nat := 8

/-- `oracle.rs`: the `PRECISION` constant used by `update`. -/
def ORACLE_PRECISION : Int := 1000000000

/-- `oracle.rs`: `PriceObservation`. -/
structure PriceObservation where
  timestamp : Nat
  price_0_cumulative : Int
  price_1_cumulative : Int
  deriving DecidableEq, Repr

/-- `oracle.rs`: `Oracle`.  The fixed 8-slot array is a list whose length is
`OBSERVATION_BUFFER_SIZE` in every reachable state. -/
structure Oracle where
  last_observation : PriceObservation
  observations : List PriceObservation
  index : Nat
  deriving DecidableEq, Repr

/-- `oracle.rs`: `Oracle::new`. -/
def Oracle.new : Oracle :=
  { last_observation := ⟨0, 0, 0⟩
    observations := List.replicate OBSERVATION_BUFFER_SIZE ⟨0, 0, 0⟩
    index := 0 }

/-- Rust `u64::checked_sub`. -/
def checked_sub_u64 (a b : Nat) : Option Nat :=
  if b ≤ a then some (a - b) else none

/-- `oracle.rs`: `Oracle::update`.  The ledger timestamp is passed
explicitly.  A call with `timestamp ≤ last_observation.timestamp` returns
`Ok` without touching the state. -/
def Oracle.update (o : Oracle) (timestamp : Nat) (reserve_0 reserve_1 : Int) :
    Except Error Oracle :=
  if timestamp ≤ o.last_observation.timestamp then .ok o
  else
    match okOr (checked_sub_u64 timestamp o.last_observation.timestamp) Error.Underflow with
    | .error e => .error e
    | .ok time_elapsed =>
    match (if 0 < reserve_0 then
             match okOr (checked_mul reserve_1 ORACLE_PRECISION) Error.Overflow with
             | .error e => .error e
             | .ok t => okOr (checked_div t reserve_0) Error.DivisionByZero
           else (.ok 0 : Except Error Int)) with
    | .error e => .error e
    | .ok price_0 =>
    match (if 0 < reserve_1 then
             match okOr (checked_mul reserve_0 ORACLE_PRECISION) Error.Overflow with
             | .error e => .error e
             | .ok t => okOr (checked_div t reserve_1) Error.DivisionByZero
           else (.ok 0 : Except Error Int)) with
    | .error e => .error e
    | .ok price_1 =>
    match okOr (checked_mul price_0 (time_elapsed : Int)) Error.Overflow with
    | .error e => .error e
    | .ok price_0_delta =>
    match okOr (checked_mul price_1 (time_elapsed : Int)) Error.Overflow with
    | .error e => .error e
    | .ok price_1_delta =>
    match okOr (checked_add o.last_observation.price_0_cumulative price_0_delta) Error.Overflow with
    | .error e => .error e
    | .ok c0 =>
    match okOr (checked_add o.last_observation.price_1_cumulative price_1_delta) Error.Overflow with
    | .error e => .error e
    | .ok c1 =>
    let new_observation : PriceObservation := ⟨timestamp, c0, c1⟩
    .ok { last_observation := new_observation
          observations := o.observations.set o.index new_observation
          index := (o.index + 1) % OBSERVATION_BUFFER_SIZE }

/-- The `for observation in &self.observations` scan of `get_twap`: keep the
observation with the largest timestamp that is `≤ target` and larger than the
current candidate's, starting from `observations[0]`. -/
def findOldest (start : PriceObservation) (obs : List PriceObservation)
    (target : Nat) : PriceObservation :=
  obs.foldl
    (fun oldest observation =>
      if observation.timestamp ≤ target ∧ oldest.timestamp < observation.timestamp
      then observation else oldest)
    start

/-- `oracle.rs`: `Oracle::get_twap`. -/
def Oracle.get_twap (o : Oracle) (seconds_ago : Nat) : Except Error Int :=
  if seconds_ago = 0 then .error .InvalidAmount
  else
    match okOr (checked_sub_u64 o.last_observation.timestamp seconds_ago) Error.Underflow with
    | .error e => .error e
    | .ok target_timestamp =>
    let oldest := findOldest (o.observations.headD ⟨0, 0, 0⟩) o.observations target_timestamp
    if oldest.timestamp = 0 then .error .InsufficientLiquidity
    else
    match okOr (checked_sub_u64 o.last_observation.timestamp oldest.timestamp) Error.Underflow with
    | .error e => .error e
    | .ok time_elapsed =>
    if time_elapsed = 0 then .error .InvalidAmount
    else
    match okOr (checked_sub o.last_observation.price_0_cumulative oldest.price_0_cumulative) Error.Underflow with
    | .error e => .error e
    | .ok price_cumulative_delta =>
    okOr (checked_div price_cumulative_delta (time_elapsed : Int)) Error.DivisionByZero

end AMM

namespace SAC

/-- `contracts/sac-factory/src/errors.rs`: the `Error` enum. -/
inductive Error
  | AlreadyInitialized
  | NotInitialized
  | Unauthorized
  | NotAdmin
  | InvalidName
  | InvalidSymbol
  | InvalidAmount
  | TokenNotFound
  | AlreadyGraduated
  | InsufficientLiquidity
  | SlippageExceeded
  | InsufficientBalance
  | Overflow
  | Underflow
  | DivisionByZero
  | CannotRevokeOwnOwnership
  | RoleNotFound
  | ContractPaused
  | ContractNotPaused
  | InvalidState
  | InsufficientFee
  | FeeTooHigh
  | InvalidFeeConfiguration
  | DeploymentFailed
  | TokenAlreadyExists
  | InvalidWasmHash
  | AmmWasmNotSet
  | TransactionExpired
  | TransferFailed
  | AmmInitializationFailed
  | InsufficientLiquidityForGraduation
  deriving DecidableEq, Repr

namespace Math

/-- `contracts/sac-factory/src/math.rs`: `safe_add`. -/
def safe_add (a b : Int) : Except Error Int :=
  okOr (checked_add a b) Error.Overflow

/-- `sac-factory math.rs`: `safe_sub`. -/
def safe_sub (a b : Int) : Except Error Int :=
  okOr (checked_sub a b) Error.Underflow

/-- `sac-factory math.rs`: `safe_mul`. -/
def safe_mul (a b : Int) : Except Error Int :=
  okOr (checked_mul a b) Error.Overflow

/-- `sac-factory math.rs`: `safe_div` (explicit zero check, then
`checked_div` whose only remaining failure is the `MIN / -1` overflow). -/
def safe_div (a b : Int) : Except Error Int :=
  if b = 0 then .error .DivisionByZero
  else okOr (checked_div a b) Error.Overflow

/-- `sac-factory math.rs`: `mul_div`. -/
def mul_div (a b c : Int) : Except Error Int :=
  match safe_mul a b with
  | .error e => .error e
  | .ok numerator => safe_div numerator c

/-- `sac-factory math.rs`: `apply_bps`. -/
def apply_bps (amount bps : Int) : Except Error Int :=
  mul_div amount bps 10000

/-- `sac-factory math.rs`: `calculate_slippage_bps`. -/
def calculate_slippage_bps (price_before price_after : Int) : Except Error Int :=
  match safe_sub price_after price_before with
  | .error e => .error e
  | .ok diff =>
  match mul_div diff 10000 price_before with
  | .error e => .error e
  | .ok slippage => .ok slippage

/-- The `while x < z` loop of `sac-factory math.rs::sqrt` (the body computes
`y_div_x = safe_div(y, x)` and then `x = safe_div(safe_add(x, y_div_x), 2)`;
after the sign guard all values are nonnegative, so natural numbers). -/
def sqrtLoop (y x z : Nat) : Except Error Nat :=
  if _h : x < z then
    if x = 0 then .error .DivisionByZero
    else
      let y_div_x := y / x
      if x + y_div_x ≤ I128MAXn then sqrtLoop y ((x + y_div_x) / 2) x
      else .error .Overflow
  else .ok z
termination_by z

/-- `sac-factory math.rs`: `sqrt` (Newton's method).  Unlike the amm-pair
`math_v2.rs` version there is no special case for `0 < y < 4`: only `y = 0`
is handled before the loop. -/
def sqrt (y : Int) : Except Error Int :=
  if y < 0 then .error .InvalidAmount
  else if y = 0 then .ok 0
  else
    match sqrtLoop y.toNat (y.toNat / 2 + 1) y.toNat with
    | .ok z => .ok (z : Int)
    | .error e => .error e

end Math

/-- `contracts/sac-factory/src/bonding_curve.rs`: `PRECISION`. -/
def PRECISION : Int := 10000000

/-- `bonding_curve.rs`: `BondingCurve`. -/
structure BondingCurve where
  total_supply : Int
  tokens_sold : Int
  tokens_remaining : Int
  xlm_reserve : Int
  k : Int
  deriving DecidableEq, Repr

/-- `bonding_curve.rs`: `BondingCurve::new`. -/
def BondingCurve.new (total_supply : Int) : Except Error BondingCurve :=
  if total_supply ≤ 0 then .error .InvalidAmount
  else
    let initial_xlm := 1000 * PRECISION
    match okOr (checked_mul initial_xlm total_supply) Error.Overflow with
    | .error e => .error e
    | .ok k =>
      .ok { total_supply := total_supply
            tokens_sold := 0
            tokens_remaining := total_supply
            xlm_reserve := initial_xlm
            k := k }

/-- `bonding_curve.rs`: `BondingCurve::calculate_buy`. -/
def BondingCurve.calculate_buy (c : BondingCurve) (xlm_in : Int) :
    Except Error Int :=
  if xlm_in ≤ 0 then .error .InvalidAmount
  else
    match okOr (checked_add c.xlm_reserve xlm_in) Error.Overflow with
    | .error e => .error e
    | .ok new_xlm_reserve =>
    match okOr (checked_div c.k new_xlm_reserve) Error.DivisionByZero with
    | .error e => .error e
    | .ok new_token_reserve =>
    match okOr (checked_sub c.tokens_remaining new_token_reserve) Error.Underflow with
    | .error e => .error e
    | .ok tokens_out =>
    if tokens_out ≤ 0 then .error .InsufficientLiquidity
    else .ok tokens_out

/-- `bonding_curve.rs`: `BondingCurve::calculate_sell`. -/
def BondingCurve.calculate_sell (c : BondingCurve) (tokens_in : Int) :
    Except Error Int :=
  if tokens_in ≤ 0 then .error .InvalidAmount
  else if c.tokens_sold < tokens_in then .error .InsufficientBalance
  else
    match okOr (checked_add c.tokens_remaining tokens_in) Error.Overflow with
    | .error e => .error e
    | .ok new_token_reserve =>
    match okOr (checked_div c.k new_token_reserve) Error.DivisionByZero with
    | .error e => .error e
    | .ok new_xlm_reserve =>
    match okOr (checked_sub c.xlm_reserve new_xlm_reserve) Error.Underflow with
    | .error e => .error e
    | .ok xlm_out =>
    if xlm_out ≤ 0 then .error .InsufficientLiquidity
    else .ok xlm_out

/-- `bonding_curve.rs`: `BondingCurve::execute_buy`. -/
def BondingCurve.execute_buy (c : BondingCurve) (xlm_in tokens_out : Int) :
    Except Error BondingCurve :=
  match okOr (checked_add c.xlm_reserve xlm_in) Error.Overflow with
  | .error e => .error e
  | .ok xlm_reserve1 =>
  match okOr (checked_sub c.tokens_remaining tokens_out) Error.Underflow with
  | .error e => .error e
  | .ok tokens_remaining1 =>
  match okOr (checked_add c.tokens_sold tokens_out) Error.Overflow with
  | .error e => .error e
  | .ok tokens_sold1 =>
  .ok { c with xlm_reserve := xlm_reserve1
               tokens_remaining := tokens_remaining1
               tokens_sold := tokens_sold1 }

/-- `bonding_curve.rs`: `BondingCurve::execute_sell`. -/
def BondingCurve.execute_sell (c : BondingCurve) (xlm_out tokens_in : Int) :
    Except Error BondingCurve :=
  match okOr (checked_sub c.xlm_reserve xlm_out) Error.Underflow with
  | .error e => .error e
  | .ok xlm_reserve1 =>
  match okOr (checked_add c.tokens_remaining tokens_in) Error.Overflow with
  | .error e => .error e
  | .ok tokens_remaining1 =>
  match okOr (checked_sub c.tokens_sold tokens_in) Error.Underflow with
  | .error e => .error e
  | .ok tokens_sold1 =>
  .ok { c with xlm_reserve := xlm_reserve1
               tokens_remaining := tokens_remaining1
               tokens_sold := tokens_sold1 }

/-- `bonding_curve.rs`: `BondingCurve::get_current_price`
(`unwrap_or(i128::MAX)` on each checked step). -/
def BondingCurve.get_current_price (c : BondingCurve) : Int :=
  if c.tokens_remaining = 0 then I128_MAX
  else
    ((checked_mul c.xlm_reserve PRECISION).getD I128_MAX
      |> fun t => (checked_div t c.tokens_remaining).getD I128_MAX)

/-- `bonding_curve.rs`: `BondingCurve::get_market_cap`. -/
def BondingCurve.get_market_cap (c : BondingCurve) : Int :=
  (checked_mul c.xlm_reserve 2).getD I128_MAX

/-- `contracts/sac-factory/src/storage.rs`: `TokenStatus`. -/
inductive TokenStatus
  | Bonding
  | Graduated
  deriving DecidableEq, Repr

/-- `storage.rs`: `TokenInfo`.  Addresses are opaque `Nat` identifiers. -/
structure TokenInfo where
  id : Nat
  creator : Nat
  token_address : Nat
  name : String
  symbol : String
  image_url : String
  description : String
  created_at : Nat
  status : TokenStatus
  bonding_curve : BondingCurve
  xlm_raised : Int
  market_cap : Int
  holders_count : Nat
  deriving DecidableEq, Repr

/-- `contracts/sac-factory/src/state_management.rs`: `ContractState`. -/
inductive ContractState
  | Uninitialized
  | Active
  | Paused
  | Migrating
  | Deprecated
  deriving DecidableEq, Repr

/-- `contracts/sac-factory/src/fee_management.rs`: `FeeConfig`. -/
structure FeeConfig where
  creation_fee : Int
  trading_fee_bps : Int
  treasury : Nat
  deriving DecidableEq, Repr

/-- `fee_management.rs`: `calculate_trading_fee`. -/
def calculate_trading_fee (amount fee_bps : Int) : Except Error Int :=
  Math.apply_bps amount fee_bps

/-- `fee_management.rs`: `apply_trading_fee`, with the stored fee
configuration passed explicitly. -/
def apply_trading_fee (config : FeeConfig) (gross_amount : Int) :
    Except Error (Int × Int) :=
  if config.trading_fee_bps = 0 then .ok (gross_amount, 0)
  else
    match calculate_trading_fee gross_amount config.trading_fee_bps with
    | .error e => .error e
    | .ok fee =>
    match Math.safe_sub gross_amount fee with
    | .error e => .error e
    | .ok net => .ok (net, fee)

/-- A value-transfer call issued to an external token contract:
`transfer token from to amount`. -/
inductive Action
  | transfer (token : Nat) (sender : Nat) (receiver : Nat) (amount : Int)
  deriving DecidableEq, Repr

/-- `contracts/sac-factory/src/lib.rs`: `GRADUATION_THRESHOLD`. -/
def GRADUATION_THRESHOLD : Int := 100000000000

/-- The environment a `buy`/`sell` call reads from the host: the ledger
timestamp, the stored contract state, fee configuration, the stored
`TokenInfo` for the traded token (`None` when absent), the native XLM SAC
address, the factory's own address, and the outcome of the external
AMM-pair deployment performed on graduation. -/
structure FactoryEnv where
  now : Nat
  contract_state : ContractState
  fee_config : FeeConfig
  token_info : Option TokenInfo
  xlm_address : Nat
  contract_address : Nat
  deploy_result : Except Error Nat
  deriving DecidableEq, Repr

/-- `lib.rs`: `graduate_to_amm`.  Returns the updated `TokenInfo`, the
stored AMM pair address, and the two liquidity transfers it issues. -/
def graduate_to_amm (w : FactoryEnv) (token_info : TokenInfo) :
    Except Error (TokenInfo × Nat × List Action) :=
  match w.deploy_result with
  | .error e => .error e
  | .ok amm_address =>
    let xlm_liquidity := token_info.bonding_curve.xlm_reserve
    let token_liquidity := token_info.bonding_curve.tokens_remaining
    if xlm_liquidity ≤ 0 ∨ token_liquidity ≤ 0 then
      .error .InsufficientLiquidityForGraduation
    else
      .ok ({ token_info with status := .Graduated },
           amm_address,
           [.transfer w.xlm_address w.contract_address amm_address xlm_liquidity,
            .transfer token_info.token_address w.contract_address amm_address token_liquidity])

/-- `lib.rs`: `buy`.  The result pairs the contract call's outcome (net
tokens bought, the `TokenInfo` written back to storage, and the AMM pair
address stored on graduation) with the list of external transfers issued
before the call returned — also on failure, so that "fails before any
transfer" is expressible. -/
def buy (w : FactoryEnv) (buyer : Nat) (xlm_amount min_tokens : Int)
    (deadline : Nat) :
    Except Error (Int × TokenInfo × Option Nat) × List Action :=
  if xlm_amount ≤ 0 then (.error .InvalidAmount, [])
  else if min_tokens < 0 then (.error .InvalidAmount, [])
  else if deadline < w.now then (.error .TransactionExpired, [])
  else if w.contract_state ≠ .Active then (.error .ContractPaused, [])
  else
    match w.token_info with
    | none => (.error .TokenNotFound, [])
    | some token_info =>
      if token_info.status ≠ .Bonding then (.error .AlreadyGraduated, [])
      else
        let t1 : Action := .transfer w.xlm_address buyer w.contract_address xlm_amount
        let price_before := token_info.bonding_curve.get_current_price
        match token_info.bonding_curve.calculate_buy xlm_amount with
        | .error e => (.error e, [t1])
        | .ok tokens_gross =>
        match apply_trading_fee w.fee_config tokens_gross with
        | .error e => (.error e, [t1])
        | .ok (tokens_net, _fee_amount) =>
        if tokens_net < min_tokens then (.error .SlippageExceeded, [t1])
        else
          let t2 : Action :=
            .transfer token_info.token_address w.contract_address buyer tokens_net
          match token_info.bonding_curve.execute_buy xlm_amount tokens_gross with
          | .error e => (.error e, [t1, t2])
          | .ok curve1 =>
          let price_after := curve1.get_current_price
          match Math.calculate_slippage_bps price_before price_after with
          | .error e => (.error e, [t1, t2])
          | .ok _slippage_bps =>
          match Math.safe_add token_info.xlm_raised xlm_amount with
          | .error e => (.error e, [t1, t2])
          | .ok xlm_raised1 =>
          match Math.safe_mul xlm_raised1 2 with
          | .error e => (.error e, [t1, t2])
          | .ok market_cap1 =>
          let ti1 := { token_info with bonding_curve := curve1,
                                       xlm_raised := xlm_raised1,
                                       market_cap := market_cap1 }
          if GRADUATION_THRESHOLD ≤ xlm_raised1 then
            match graduate_to_amm w ti1 with
            | .error e => (.error e, [t1, t2])
            | .ok (ti2, amm_address, graduation_actions) =>
              (.ok (tokens_net, ti2, some amm_address), [t1, t2] ++ graduation_actions)
          else
            (.ok (tokens_net, ti1, none), [t1, t2])

/-- `lib.rs`: `sell`, modelled like `buy`. -/
def sell (w : FactoryEnv) (seller : Nat) (token_amount min_xlm : Int)
    (deadline : Nat) :
    Except Error (Int × TokenInfo × Option Nat) × List Action :=
  if token_amount ≤ 0 then (.error .InvalidAmount, [])
  else if min_xlm < 0 then (.error .InvalidAmount, [])
  else if deadline < w.now then (.error .TransactionExpired, [])
  else if w.contract_state ≠ .Active then (.error .ContractPaused, [])
  else
    match w.token_info with
    | none => (.error .TokenNotFound, [])
    | some token_info =>
      if token_info.status ≠ .Bonding then (.error .AlreadyGraduated, [])
      else
        match token_info.bonding_curve.calculate_sell token_amount with
        | .error e => (.error e, [])
        | .ok xlm_gross =>
        match apply_trading_fee w.fee_config xlm_gross with
        | .error e => (.error e, [])
        | .ok (xlm_net, _fee_amount) =>
        if xlm_net < min_xlm then (.error .SlippageExceeded, [])
        else
          let t1 : Action :=
            .transfer token_info.token_address seller w.contract_address token_amount
          let t2 : Action := .transfer w.xlm_address w.contract_address seller xlm_net
          match token_info.bonding_curve.execute_sell xlm_gross token_amount with
          | .error e => (.error e, [t1, t2])
          | .ok curve1 =>
          match Math.safe_sub token_info.xlm_raised xlm_gross with
          | .error e => (.error e, [t1, t2])
          | .ok xlm_raised1 =>
          match Math.safe_mul xlm_raised1 2 with
          | .error e => (.error e, [t1, t2])
          | .ok market_cap1 =>
          let ti1 := { token_info with bonding_curve := curve1,
                                       xlm_raised := xlm_raised1,
                                       market_cap := market_cap1 }
          (.ok (xlm_net, ti1, none), [t1, t2])

end SAC

namespace TF

/-- `contracts/token-factory/src/errors.rs`: the `Error` enum. -/
inductive Error
  | AlreadyInitialized
  | NotInitialized
  | Unauthorized
  | NotAdmin
  | InvalidNameLength
  | InvalidSymbolLength
  | InvalidSupply
  | InvalidDecimals
  | InvalidMetadataUri
  | AmountTooSmall
  | AmountTooLarge
  | TokenNotFound
  | AlreadyGraduated
  | InsufficientReserve
  | InsufficientBalance
  | SlippageExceeded
  | PriceImpactTooHigh
  | RateLimitExceeded
  | TooManyTokens
  | CreationCooldown
  | Overflow
  | Underflow
  | DivisionByZero
  | ContractPaused
  | Blacklisted
  | InvalidCaller
  deriving DecidableEq, Repr

/-- `contracts/token-factory/src/bonding_curve_v2.rs`: `PRECISION`. -/
def PRECISION : Int := 1000000

/-- `bonding_curve_v2.rs`: `CurveType`. -/
inductive CurveType
  | Linear
  | Exponential
  | Sigmoid
  deriving DecidableEq, Repr

/-- `bonding_curve_v2.rs`: `BondingCurveV2` (`sell_penalty_bps` is an `i64`
in the source and is cast to `i128` at its only use site; it is an `Int`
here). -/
structure BondingCurveV2 where
  curve_type : CurveType
  circulating_supply : Int
  total_supply : Int
  base_price : Int
  k : Int
  xlm_reserve : Int
  sell_penalty_bps : Int
  deriving DecidableEq, Repr

/-- `bonding_curve_v2.rs`: `new_linear`. -/
def BondingCurveV2.new_linear (total_supply : Int) : BondingCurveV2 :=
  { curve_type := .Linear
    circulating_supply := 0
    total_supply := total_supply
    base_price := 100
    k := 1000000000
    xlm_reserve := 0
    sell_penalty_bps := 200 }

/-- `bonding_curve_v2.rs`: `new_exponential`. -/
def BondingCurveV2.new_exponential (total_supply : Int) : BondingCurveV2 :=
  { curve_type := .Exponential
    circulating_supply := 0
    total_supply := total_supply
    base_price := 100
    k := 100000000
    xlm_reserve := 0
    sell_penalty_bps := 300 }

/-- `bonding_curve_v2.rs`: `new_sigmoid`. -/
def BondingCurveV2.new_sigmoid (total_supply : Int) : BondingCurveV2 :=
  { curve_type := .Sigmoid
    circulating_supply := 0
    total_supply := total_supply
    base_price := 100
    k := 500000000
    xlm_reserve := 0
    sell_penalty_bps := 200 }

/-- `bonding_curve_v2.rs`: `price_linear`
(`checked_mul … unwrap_or(i128::MAX)`, `checked_div … unwrap_or(0)`,
`checked_add … unwrap_or(i128::MAX)`). -/
def BondingCurveV2.price_linear (c : BondingCurveV2) : Int :=
  let price_increase :=
    (checked_div ((checked_mul c.circulating_supply PRECISION).getD I128_MAX) c.k).getD 0
  (checked_add c.base_price price_increase).getD I128_MAX

/-- `bonding_curve_v2.rs`: `price_exponential`.  The three-term Taylor
polynomial `PRECISION + x + x_squared / 2` uses unchecked release-mode
arithmetic (wrapping adds, truncated division by 2). -/
def BondingCurveV2.price_exponential (c : BondingCurveV2) : Int :=
  if c.circulating_supply = 0 then c.base_price
  else
    let x :=
      (checked_div ((checked_mul c.circulating_supply PRECISION).getD I128_MAX) c.k).getD 0
    let x_squared :=
      (checked_div ((checked_mul x x).getD I128_MAX) PRECISION).getD 0
    let exp_approx := wrap128 (wrap128 (PRECISION + x) + x_squared.tdiv 2)
    (checked_div ((checked_mul c.base_price exp_approx).getD I128_MAX) PRECISION).getD I128_MAX

/-- `bonding_curve_v2.rs`: `price_sigmoid` (piecewise blend; the `/ 2`,
`* 3 / 2` and `* 2` steps are unchecked release-mode arithmetic). -/
def BondingCurveV2.price_sigmoid (c : BondingCurveV2) : Int :=
  let midpoint := c.total_supply.tdiv 2
  if c.circulating_supply < midpoint.tdiv 2 then
    c.price_linear.tdiv 2
  else if c.circulating_supply < (wrap128 (midpoint * 3)).tdiv 2 then
    c.price_exponential
  else
    wrap128 (c.price_linear * 2)

/-- `bonding_curve_v2.rs`: `get_current_price`. -/
def BondingCurveV2.get_current_price (c : BondingCurveV2) : Int :=
  if c.circulating_supply = 0 then c.base_price
  else
    match c.curve_type with
    | .Linear => c.price_linear
    | .Exponential => c.price_exponential
    | .Sigmoid => c.price_sigmoid

/-- `bonding_curve_v2.rs`: `calculate_buy_linear`. -/
def BondingCurveV2.calculate_buy_linear (c : BondingCurveV2) (xlm_amount : Int) :
    Except Error Int :=
  let current_price := c.get_current_price
  match okOr (checked_mul xlm_amount 10000000) Error.Overflow with
  | .error e => .error e
  | .ok t => okOr (checked_div t current_price) Error.DivisionByZero

/-- `bonding_curve_v2.rs`: `calculate_sell_linear`. -/
def BondingCurveV2.calculate_sell_linear (c : BondingCurveV2) (token_amount : Int) :
    Except Error Int :=
  let current_price := c.get_current_price
  match okOr (checked_mul token_amount current_price) Error.Overflow with
  | .error e => .error e
  | .ok t => okOr (checked_div t 10000000) Error.DivisionByZero

/-- `bonding_curve_v2.rs`: `calculate_buy_exponential`. -/
def BondingCurveV2.calculate_buy_exponential (c : BondingCurveV2) (xlm_amount : Int) :
    Except Error Int :=
  let current_price := c.get_current_price
  match okOr (checked_mul xlm_amount 10000000) Error.Overflow with
  | .error e => .error e
  | .ok t => okOr (checked_div t current_price) Error.DivisionByZero

/-- `bonding_curve_v2.rs`: `calculate_sell_exponential`. -/
def BondingCurveV2.calculate_sell_exponential (c : BondingCurveV2) (token_amount : Int) :
    Except Error Int :=
  let current_price := c.get_current_price
  match okOr (checked_mul token_amount current_price) Error.Overflow with
  | .error e => .error e
  | .ok t => okOr (checked_div t 10000000) Error.DivisionByZero

/-- `bonding_curve_v2.rs`: `calculate_buy_sigmoid`. -/
def BondingCurveV2.calculate_buy_sigmoid (c : BondingCurveV2) (xlm_amount : Int) :
    Except Error Int :=
  let current_price := c.get_current_price
  match okOr (checked_mul xlm_amount 10000000) Error.Overflow with
  | .error e => .error e
  | .ok t => okOr (checked_div t current_price) Error.DivisionByZero

/-- `bonding_curve_v2.rs`: `calculate_sell_sigmoid`. -/
def BondingCurveV2.calculate_sell_sigmoid (c : BondingCurveV2) (token_amount : Int) :
    Except Error Int :=
  let current_price := c.get_current_price
  match okOr (checked_mul token_amount current_price) Error.Overflow with
  | .error e => .error e
  | .ok t => okOr (checked_div t 10000000) Error.DivisionByZero

/-- `bonding_curve_v2.rs`: `calculate_buy_amount`. -/
def BondingCurveV2.calculate_buy_amount (c : BondingCurveV2) (xlm_amount : Int) :
    Except Error Int :=
  if xlm_amount ≤ 0 then .error .AmountTooSmall
  else
    match c.curve_type with
    | .Linear => c.calculate_buy_linear xlm_amount
    | .Exponential => c.calculate_buy_exponential xlm_amount
    | .Sigmoid => c.calculate_buy_sigmoid xlm_amount

/-- The shape dispatch inside `calculate_sell_amount`, before the sell
penalty is applied. -/
def BondingCurveV2.sell_before_penalty (c : BondingCurveV2) (token_amount : Int) :
    Except Error Int :=
  match c.curve_type with
  | .Linear => c.calculate_sell_linear token_amount
  | .Exponential => c.calculate_sell_exponential token_amount
  | .Sigmoid => c.calculate_sell_sigmoid token_amount

/-- `bonding_curve_v2.rs`: `calculate_sell_amount`: shape-specific payout,
then `penalty = payout * sell_penalty_bps / 10_000` subtracted. -/
def BondingCurveV2.calculate_sell_amount (c : BondingCurveV2) (token_amount : Int) :
    Except Error Int :=
  if token_amount ≤ 0 then .error .AmountTooSmall
  else if c.circulating_supply < token_amount then .error .InsufficientBalance
  else
    match c.sell_before_penalty token_amount with
    | .error e => .error e
    | .ok xlm_before_penalty =>
    match okOr (checked_mul xlm_before_penalty c.sell_penalty_bps) Error.Overflow with
    | .error e => .error e
    | .ok t =>
    match okOr (checked_div t 10000) Error.DivisionByZero with
    | .error e => .error e
    | .ok penalty =>
    okOr (checked_sub xlm_before_penalty penalty) Error.Underflow

/-- `bonding_curve_v2.rs`: `apply_buy`. -/
def BondingCurveV2.apply_buy (c : BondingCurveV2) (xlm_spent tokens_received : Int) :
    Except Error BondingCurveV2 :=
  match okOr (checked_add c.circulating_supply tokens_received) Error.Overflow with
  | .error e => .error e
  | .ok circulating1 =>
  match okOr (checked_add c.xlm_reserve xlm_spent) Error.Overflow with
  | .error e => .error e
  | .ok reserve1 =>
  .ok { c with circulating_supply := circulating1, xlm_reserve := reserve1 }

/-- `bonding_curve_v2.rs`: `apply_sell`. -/
def BondingCurveV2.apply_sell (c : BondingCurveV2) (xlm_received tokens_sold : Int) :
    Except Error BondingCurveV2 :=
  match okOr (checked_sub c.circulating_supply tokens_sold) Error.Underflow with
  | .error e => .error e
  | .ok circulating1 =>
  match okOr (checked_sub c.xlm_reserve xlm_received) Error.Underflow with
  | .error e => .error e
  | .ok reserve1 =>
  .ok { c with circulating_supply := circulating1, xlm_reserve := reserve1 }

end TF


theorem okOr_eq_ok {ε α : Type} {o : Option α} {e : ε} {v : α} :
    okOr o e = .ok v ↔ o = some v := by
  cases o <;> simp [okOr]

theorem okOr_eq_error {ε α : Type} {o : Option α} {e e1 : ε} :
    okOr o e = .error e1 ↔ o = none ∧ e1 = e := by
  cases o <;> simp [okOr, eq_comm]

section ClaimC9

/-- C9: `tokensSold + tokensRemaining == totalSupply` is an invariant of the
constant-product bonding curve: it holds for every freshly created curve, and
every successful `execute_buy` and `execute_sell` preserves it. -/
theorem C9_supply_invariant :
    (∀ (total : Int) (c : SAC.BondingCurve), SAC.BondingCurve.new total = .ok c →
        c.tokens_sold + c.tokens_remaining = c.total_supply)
  ∧ (∀ (c : SAC.BondingCurve) (x t : Int) (c1 : SAC.BondingCurve),
        c.tokens_sold + c.tokens_remaining = c.total_supply →
        c.execute_buy x t = .ok c1 →
        c1.tokens_sold + c1.tokens_remaining = c1.total_supply)
  ∧ (∀ (c : SAC.BondingCurve) (x t : Int) (c1 : SAC.BondingCurve),
        c.tokens_sold + c.tokens_remaining = c.total_supply →
        c.execute_sell x t = .ok c1 →
        c1.tokens_sold + c1.tokens_remaining = c1.total_supply) := by
  refine ⟨?_, ?_, ?_⟩
  · intro total c hnew
    unfold SAC.BondingCurve.new at hnew
    simp only [] at hnew
    split at hnew
    · simp at hnew
    · split at hnew
      · simp at hnew
      · cases hnew
        simp
  · intro c x t c1 hinv hex
    unfold SAC.BondingCurve.execute_buy at hex
    split at hex
    · simp at hex
    · split at hex
      · simp at hex
      · split at hex
        · simp at hex
        · cases hex
          dsimp only
          simp only [okOr_eq_ok, checked_sub_eq_some, checked_add_eq_some,
            inI128, I128_MAX, I128_MIN] at *
          omega
  · intro c x t c1 hinv hex
    unfold SAC.BondingCurve.execute_sell at hex
    split at hex
    · simp at hex
    · split at hex
      · simp at hex
      · split at hex
        · simp at hex
        · cases hex
          dsimp only
          simp only [okOr_eq_ok, checked_sub_eq_some, checked_add_eq_some,
            inI128, I128_MAX, I128_MIN] at *
          omega

/-- Witness for C9 at concrete inputs. -/
theorem C9_supply_invariant_witness :
    (⟨1000, 3, 997, 15, 10⟩ : SAC.BondingCurve).tokens_sold +
      (⟨1000, 3, 997, 15, 10⟩ : SAC.BondingCurve).tokens_remaining =
      (⟨1000, 3, 997, 15, 10⟩ : SAC.BondingCurve).total_supply :=
  C9_supply_invariant.2.1 ⟨1000, 0, 1000, 10, 10⟩ 5 3 ⟨1000, 3, 997, 15, 10⟩
    (by decide) (by decide)

end ClaimC9

section ClaimC6

/-- C6: calling the oracle's `update` with a timestamp less than or equal to
the last observation's timestamp succeeds and leaves the entire oracle state
(cumulative prices, ring buffer, write index, last observation) unchanged. -/
theorem C6_update_stale_timestamp_noop (o : AMM.Oracle) (timestamp : Nat)
    (reserve_0 reserve_1 : Int)
    (h : timestamp ≤ o.last_observation.timestamp) :
    AMM.Oracle.update o timestamp reserve_0 reserve_1 = .ok o := by
  unfold AMM.Oracle.update
  simp [h]

/-- Witness for C6: a stale update on a concrete oracle state. -/
theorem C6_update_stale_timestamp_noop_witness :
    (3 ≤ ({ last_observation := ⟨3, 40, 50⟩,
            observations := [⟨3, 40, 50⟩, ⟨0, 0, 0⟩, ⟨0, 0, 0⟩, ⟨0, 0, 0⟩,
                             ⟨0, 0, 0⟩, ⟨0, 0, 0⟩, ⟨0, 0, 0⟩, ⟨0, 0, 0⟩],
            index := 1 } : AMM.Oracle).last_observation.timestamp)
  ∧ AMM.Oracle.update
      { last_observation := ⟨3, 40, 50⟩,
        observations := [⟨3, 40, 50⟩, ⟨0, 0, 0⟩, ⟨0, 0, 0⟩, ⟨0, 0, 0⟩,
                         ⟨0, 0, 0⟩, ⟨0, 0, 0⟩, ⟨0, 0, 0⟩, ⟨0, 0, 0⟩],
        index := 1 } 3 7 9
    = .ok { last_observation := ⟨3, 40, 50⟩,
            observations := [⟨3, 40, 50⟩, ⟨0, 0, 0⟩, ⟨0, 0, 0⟩, ⟨0, 0, 0⟩,
                             ⟨0, 0, 0⟩, ⟨0, 0, 0⟩, ⟨0, 0, 0⟩, ⟨0, 0, 0⟩],
            index := 1 } :=
  ⟨by decide, C6_update_stale_timestamp_noop _ 3 7 9 (by decide)⟩

end ClaimC6

section ClaimC7

/-- C7: on a token whose status is `Graduated`, both `buy` and `sell` fail
before issuing any transfer (the action trace is empty and no `Ok` result is
possible for any inputs), and under otherwise well-formed inputs the error
kind is precisely `AlreadyGraduated`. -/
theorem C7_graduated_buy_sell_rejected (w : SAC.FactoryEnv) (ti : SAC.TokenInfo)
    (hti : w.token_info = some ti) (hst : ti.status = .Graduated) :
    (∀ buyer xlm_amount min_tokens deadline,
        (SAC.buy w buyer xlm_amount min_tokens deadline).2 = []
      ∧ ∀ r, (SAC.buy w buyer xlm_amount min_tokens deadline).1 ≠ .ok r)
  ∧ (∀ seller token_amount min_xlm deadline,
        (SAC.sell w seller token_amount min_xlm deadline).2 = []
      ∧ ∀ r, (SAC.sell w seller token_amount min_xlm deadline).1 ≠ .ok r)
  ∧ (∀ buyer xlm_amount min_tokens deadline,
        0 < xlm_amount → 0 ≤ min_tokens → w.now ≤ deadline →
        w.contract_state = .Active →
        (SAC.buy w buyer xlm_amount min_tokens deadline).1 = .error .AlreadyGraduated)
  ∧ (∀ seller token_amount min_xlm deadline,
        0 < token_amount → 0 ≤ min_xlm → w.now ≤ deadline →
        w.contract_state = .Active →
        (SAC.sell w seller token_amount min_xlm deadline).1 = .error .AlreadyGraduated) := by
  have hb : ¬ ti.status = SAC.TokenStatus.Bonding := by
    rw [hst]
    intro hc
    cases hc
  refine ⟨?_, ?_, ?_, ?_⟩
  · intro buyer x m dl
    unfold SAC.buy
    rw [hti]
    split
    · simp
    · split
      · simp
      · split
        · simp
        · split
          · simp
          · simp [hb]
  · intro seller a m dl
    unfold SAC.sell
    rw [hti]
    split
    · simp
    · split
      · simp
      · split
        · simp
        · split
          · simp
          · simp [hb]
  · intro buyer x m dl hx hm hdl hact
    unfold SAC.buy
    rw [hti]
    have h1 : ¬ x ≤ 0 := by omega
    have h2 : ¬ m < 0 := by omega
    have h3 : ¬ dl < w.now := by omega
    have h4 : ¬ w.contract_state ≠ SAC.ContractState.Active := by
      rw [hact]
      intro hc
      exact hc rfl
    simp [h1, h2, h3, h4, hb]
  · intro seller a m dl ha hm hdl hact
    unfold SAC.sell
    rw [hti]
    have h1 : ¬ a ≤ 0 := by omega
    have h2 : ¬ m < 0 := by omega
    have h3 : ¬ dl < w.now := by omega
    have h4 : ¬ w.contract_state ≠ SAC.ContractState.Active := by
      rw [hact]
      intro hc
      exact hc rfl
    simp [h1, h2, h3, h4, hb]

/-- A concrete graduated token record, used by the C7 witness. -/
def exGraduatedToken : SAC.TokenInfo :=
  ⟨0, 5, 9, "", "", "", "", 0, .Graduated, ⟨1000, 0, 1000, 10, 10⟩, 0, 0, 0⟩

/-- A concrete factory environment holding `exGraduatedToken`, used by the
C7 witness. -/
def exGraduatedEnv : SAC.FactoryEnv :=
  ⟨0, .Active, ⟨100000, 100, 7⟩, some exGraduatedToken, 1, 2, .ok 3⟩

/-- Witness for C7: a concrete graduated token rejects a concrete buy. -/
theorem C7_graduated_buy_sell_rejected_witness :
    (SAC.buy exGraduatedEnv 4 100 0 10).1 = .error .AlreadyGraduated :=
  (C7_graduated_buy_sell_rejected exGraduatedEnv exGraduatedToken rfl rfl).2.2.1
    4 100 0 10 (by decide) (by decide) (by decide) rfl

end ClaimC7

theorem checked_div_eq_some {a b c : Int} :
    checked_div a b = some c ↔ b ≠ 0 ∧ ¬(a = I128_MIN ∧ b = -1) ∧ c = a.tdiv b := by
  unfold checked_div
  split
  · simp_all
  · split
    · simp_all
    · simp_all [eq_comm]

/-- Inversion of a successful `math_v2.rs::get_amount_out`: the guards
passed, every intermediate fits in `i128`, and the result is the truncated
quotient of the fee formula. -/
theorem gao_ok_elim {x ri ro : Int} {fee : Option Int} {v : Int}
    (h : AMM.MathV2.get_amount_out x ri ro fee = .ok v) :
    0 < x ∧ 0 < ri ∧ 0 < ro ∧
    inI128 (10000 - fee.getD 30) ∧
    inI128 (x * (10000 - fee.getD 30)) ∧
    inI128 (x * (10000 - fee.getD 30) * ro) ∧
    inI128 (ri * 10000) ∧
    inI128 (ri * 10000 + x * (10000 - fee.getD 30)) ∧
    ri * 10000 + x * (10000 - fee.getD 30) ≠ 0 ∧
    v = (x * (10000 - fee.getD 30) * ro).tdiv (ri * 10000 + x * (10000 - fee.getD 30)) := by
  unfold AMM.MathV2.get_amount_out at h
  simp only [AMM.MathV2.FEE_DENOMINATOR, AMM.MathV2.DEFAULT_FEE_BPS] at h
  split at h
  · simp at h
  split at h
  · simp at h
  rename_i hx hrr
  push_neg at hx hrr
  split at h
  · simp at h
  rename_i fm hfm
  split at h
  · simp at h
  rename_i aw haw
  split at h
  · simp at h
  rename_i num hnum
  split at h
  · simp at h
  rename_i rp hrp
  split at h
  · simp at h
  rename_i den hden
  rw [okOr_eq_ok, checked_sub_eq_some] at hfm
  rw [okOr_eq_ok, checked_mul_eq_some] at haw
  rw [okOr_eq_ok, checked_mul_eq_some] at hnum
  rw [okOr_eq_ok, checked_mul_eq_some] at hrp
  rw [okOr_eq_ok, checked_add_eq_some] at hden
  rw [okOr_eq_ok, checked_div_eq_some] at h
  obtain ⟨hfm1, hfm2⟩ := hfm
  obtain ⟨haw1, haw2⟩ := haw
  obtain ⟨hnum1, hnum2⟩ := hnum
  obtain ⟨hrp1, hrp2⟩ := hrp
  obtain ⟨hden1, hden2⟩ := hden
  obtain ⟨hd1, _hd2, hv⟩ := h
  subst hfm2
  subst haw2
  subst hnum2
  subst hrp2
  subst hden2
  refine ⟨by omega, by omega, by omega, hfm1, haw1, hnum1, hrp1, hden1, hd1, hv⟩

/-- Inversion of a successful `math_v2.rs::get_amount_in`. -/
theorem gai_ok_elim {ao ri ro : Int} {fee : Option Int} {v : Int}
    (h : AMM.MathV2.get_amount_in ao ri ro fee = .ok v) :
    0 < ao ∧ 0 < ri ∧ 0 < ro ∧ ao < ro ∧
    inI128 (10000 - fee.getD 30) ∧
    inI128 (ri * ao) ∧
    inI128 (ri * ao * 10000) ∧
    inI128 (ro - ao) ∧
    inI128 ((ro - ao) * (10000 - fee.getD 30)) ∧
    (ro - ao) * (10000 - fee.getD 30) ≠ 0 ∧
    inI128 ((ri * ao * 10000).tdiv ((ro - ao) * (10000 - fee.getD 30)) + 1) ∧
    v = (ri * ao * 10000).tdiv ((ro - ao) * (10000 - fee.getD 30)) + 1 := by
  unfold AMM.MathV2.get_amount_in at h
  simp only [AMM.MathV2.FEE_DENOMINATOR, AMM.MathV2.DEFAULT_FEE_BPS] at h
  split at h
  · simp at h
  split at h
  · simp at h
  split at h
  · simp at h
  rename_i hao hrr hcap
  push_neg at hao hrr hcap
  split at h
  · simp at h
  rename_i fm hfm
  split at h
  · simp at h
  rename_i rp hrp
  split at h
  · simp at h
  rename_i num hnum
  split at h
  · simp at h
  rename_i rd hrd
  split at h
  · simp at h
  rename_i den hden
  split at h
  · simp at h
  rename_i base hbase
  rw [okOr_eq_ok, checked_sub_eq_some] at hfm
  rw [okOr_eq_ok, checked_mul_eq_some] at hrp
  rw [okOr_eq_ok, checked_mul_eq_some] at hnum
  rw [okOr_eq_ok, checked_sub_eq_some] at hrd
  rw [okOr_eq_ok, checked_mul_eq_some] at hden
  rw [okOr_eq_ok, checked_div_eq_some] at hbase
  rw [okOr_eq_ok, checked_add_eq_some] at h
  obtain ⟨hfm1, hfm2⟩ := hfm
  obtain ⟨hrp1, hrp2⟩ := hrp
  obtain ⟨hnum1, hnum2⟩ := hnum
  obtain ⟨hrd1, hrd2⟩ := hrd
  obtain ⟨hden1, hden2⟩ := hden
  obtain ⟨hd1, _hd2, hbase2⟩ := hbase
  obtain ⟨h1, h2⟩ := h
  subst hfm2
  subst hrp2
  subst hnum2
  subst hrd2
  subst hden2
  subst hbase2
  refine ⟨by omega, by omega, by omega, by omega, hfm1, hrp1, hnum1, hrd1, hden1, hd1, h1, h2⟩

section ClaimC3

/-- C3 (amended): on positive input and reserves, a successful
`get_amount_out` returns exactly `floor(amountIn*feeMul*Ro / (Ri*10000 +
amountIn*feeMul))` with `feeMul = 10000 - feeBps`; it fails
`InsufficientInputAmount` on non-positive input and `InsufficientLiquidity`
on non-positive reserves; the successful result is nonnegative and strictly
below the fee-free ratio (`v * Ri < amountIn * Ro`), but it can be zero. -/
theorem C3_get_amount_out_spec :
    (∀ (x ri ro fee v : Int), 0 ≤ fee → fee ≤ 10000 →
        AMM.MathV2.get_amount_out x ri ro (some fee) = .ok v →
        v = (x * (10000 - fee) * ro).tdiv (ri * 10000 + x * (10000 - fee))
        ∧ 0 ≤ v ∧ v * ri < x * ro)
  ∧ (∀ (x ri ro : Int) (fee : Option Int), x ≤ 0 →
        AMM.MathV2.get_amount_out x ri ro fee = .error .InsufficientInputAmount)
  ∧ (∀ (x ri ro : Int) (fee : Option Int), 0 < x → (ri ≤ 0 ∨ ro ≤ 0) →
        AMM.MathV2.get_amount_out x ri ro fee = .error .InsufficientLiquidity) := by
  refine ⟨?_, ?_, ?_⟩
  · intro x ri ro fee v hf0 hf1 h
    obtain ⟨hx, hri, hro, _, _, _, _, _, _, hv⟩ := gao_ok_elim h
    simp only [Option.getD_some] at hv
    set fm : Int := 10000 - fee with hfm
    have hfm0 : 0 ≤ fm := by omega
    have hfm1 : fm ≤ 10000 := by omega
    set num : Int := x * fm * ro with hnum
    set den : Int := ri * 10000 + x * fm with hden
    have hnum0 : 0 ≤ num := by positivity
    have hden0 : 0 < den := by positivity
    have hveq : v = num / den := by
      rw [hv, tdiv_eq_ediv_nonneg hnum0 (le_of_lt hden0)]
    have hv0 : 0 ≤ v := by
      rw [hveq]
      exact Int.ediv_nonneg hnum0 (le_of_lt hden0)
    have hvden : v * den ≤ num := by
      have hmod0 : 0 ≤ num % den := Int.emod_nonneg num (by omega)
      have halg : den * (num / den) + num % den = num := Int.ediv_add_emod num den
      rw [hveq]
      nlinarith
    refine ⟨hv, hv0, ?_⟩
    rcases eq_or_lt_of_le hv0 with hv1 | hv1
    · rw [← hv1]
      simpa using mul_pos hx hro
    · have hfmpos : 0 < fm := by
        rcases eq_or_lt_of_le hfm0 with hfm2 | hfm2
        · exfalso
          have hfz : fm = 0 := by omega
          have hnz : num = 0 := by rw [hnum, hfz]; ring
          nlinarith
        · exact hfm2
      have hrov : v ≤ ro := by nlinarith
      have hkey : v * ri * 10000 ≤ x * fm * (ro - v) := by nlinarith
      have hkey2 : x * fm * (ro - v) ≤ x * 10000 * (ro - v) :=
        mul_le_mul_of_nonneg_right (mul_le_mul_of_nonneg_left hfm1 hx.le) (by omega)
      nlinarith [mul_pos hx hv1]
  · intro x ri ro fee hx
    unfold AMM.MathV2.get_amount_out
    simp [hx]
  · intro x ri ro fee hx hrr
    unfold AMM.MathV2.get_amount_out
    have hxn : ¬ x ≤ 0 := by omega
    simp [hxn, hrr]

/-- C3 counterexample: at `amountIn = reserveIn = reserveOut = 1` with the
default fee the computed output is `0`, refuting "the output is never
zero". -/
theorem C3_counterexample :
    AMM.MathV2.get_amount_out 1 1 1 none = .ok 0 := by decide

/-- Witness for C3 at `amountIn = 1000`, reserves `10^6`, fee 30 bps. -/
theorem C3_get_amount_out_spec_witness :
    (996 : Int) = ((1000 : Int) * (10000 - 30) * 1000000).tdiv
        (1000000 * 10000 + 1000 * (10000 - 30))
    ∧ (0 : Int) ≤ 996 ∧ (996 : Int) * 1000000 < 1000 * 1000000 :=
  C3_get_amount_out_spec.1 1000 1000000 1000000 30 996
    (by decide) (by decide) (by decide)

end ClaimC3

section ClaimC2

/-- C2 (amended): the round trip never overshoots by more than one unit
(`getAmountIn(getAmountOut(x)) ≤ x + 1`), and the computed input re-yields
at least the requested output; but the round trip can undershoot `x` by far
more than one unit, so the two-sided `|· - x| ≤ 1` bound is false. -/
theorem C2_round_trip_one_sided (x ri ro out xin : Int)
    (h1 : AMM.MathV2.get_amount_out x ri ro none = .ok out)
    (h2 : AMM.MathV2.get_amount_in out ri ro none = .ok xin) :
    xin ≤ x + 1
  ∧ ∀ v, AMM.MathV2.get_amount_out xin ri ro none = .ok v → out ≤ v := by
  obtain ⟨hx, hri, hro, _, _, _, _, _, _, hout⟩ := gao_ok_elim h1
  obtain ⟨hop, _, _, hor, _, _, _, _, _, _, _, hxin⟩ := gai_ok_elim h2
  simp only [Option.getD_none] at hout hxin
  set num : Int := x * (10000 - 30) * ro with hnumd
  set den : Int := ri * 10000 + x * (10000 - 30) with hdend
  set U : Int := ri * out * 10000 with hUd
  set V : Int := (ro - out) * (10000 - 30) with hVd
  have hnum0 : 0 ≤ num := by positivity
  have hden0 : 0 < den := by positivity
  have hU0 : 0 ≤ U := by positivity
  have hV0 : 0 < V := by
    have : 0 < ro - out := by omega
    positivity
  have houte : out = num / den := by
    rw [hout, tdiv_eq_ediv_nonneg hnum0 hden0.le]
  have hxine : xin = U / V + 1 := by
    rw [hxin, tdiv_eq_ediv_nonneg hU0 hV0.le]
  have houtden : out * den ≤ num := by
    have hmod0 : 0 ≤ num % den := Int.emod_nonneg num (by omega)
    have halg : den * (num / den) + num % den = num := Int.ediv_add_emod num den
    rw [houte]
    nlinarith
  constructor
  · have hUxV : U ≤ x * V := by nlinarith
    have : U / V ≤ x := by
      calc U / V ≤ x * V / V := Int.ediv_le_ediv hV0 hUxV
      _ = x := Int.mul_ediv_cancel x (by omega)
    omega
  · intro v h3
    obtain ⟨hxi, _, _, _, _, _, _, _, _, hv⟩ := gao_ok_elim h3
    simp only [Option.getD_none] at hv
    set num2 : Int := xin * (10000 - 30) * ro with hnum2d
    set den2 : Int := ri * 10000 + xin * (10000 - 30) with hden2d
    have hnum20 : 0 ≤ num2 := by positivity
    have hden20 : 0 < den2 := by positivity
    have hve : v = num2 / den2 := by
      rw [hv, tdiv_eq_ediv_nonneg hnum20 hden20.le]
    have hxinV : U + 1 ≤ xin * V := by
      have hmod0 : 0 ≤ U % V := Int.emod_nonneg U (by omega)
      have hmod1 : U % V < V := Int.emod_lt_of_pos U hV0
      have halg : V * (U / V) + U % V = U := Int.ediv_add_emod U V
      rw [hxine]
      nlinarith
    have hkey : out * den2 ≤ num2 := by nlinarith
    rw [hve]
    exact (Int.le_ediv_iff_mul_le hden20).mpr hkey

/-- C2 counterexample: at `(x, Ri, Ro) = (2000, 1000, 3)` the computed
output is `1` and feeding it back gives `502`, an undershoot of `1498`
units — the two-sided round-trip bound fails. -/
theorem C2_counterexample :
    AMM.MathV2.get_amount_out 2000 1000 3 none = .ok 1
  ∧ AMM.MathV2.get_amount_in 1 1000 3 none = .ok 502
  ∧ ¬ (((502 : Int) - 2000).natAbs ≤ 1) := by decide

/-- Witness for C2 at the repository's own round-trip test point. -/
theorem C2_round_trip_one_sided_witness :
    (999999 : Int) ≤ 1000000 + 1
  ∧ ∀ v, AMM.MathV2.get_amount_out 999999 10000000 10000000 none = .ok v →
      (906610 : Int) ≤ v :=
  C2_round_trip_one_sided 1000000 10000000 10000000 906610 999999
    (by decide) (by decide)

end ClaimC2

section ClaimC10

/-- C10: whenever the overflow-checked v2 math succeeds at its default
30-bps fee, the legacy unchecked math returns the same value, for both
`get_amount_out` and `get_amount_in`. -/
theorem C10_legacy_matches_v2 (x ri ro ao v w : Int) :
    (AMM.MathV2.get_amount_out x ri ro none = .ok v →
        AMM.Math.get_amount_out x ri ro = .ok v)
  ∧ (AMM.MathV2.get_amount_in ao ri ro none = .ok w →
        AMM.Math.get_amount_in ao ri ro = .ok w) := by
  constructor
  · intro h
    obtain ⟨hx, hri, hro, hfm, haw, hnum, hrp, hden, hd, hv⟩ := gao_ok_elim h
    simp only [Option.getD_none] at haw hnum hrp hden hd hv
    unfold AMM.Math.get_amount_out
    simp only [AMM.Math.FEE_DENOMINATOR, AMM.Math.FEE_BPS]
    have hxn : ¬ x ≤ 0 := by omega
    have hrn : ¬ (ri ≤ 0 ∨ ro ≤ 0) := by omega
    simp only [hxn, hrn, if_false]
    rw [wrap128_eq_self haw, wrap128_eq_self hrp, wrap128_eq_self hnum,
        wrap128_eq_self hden]
    unfold AMM.Math.rustDiv
    have hdenpos : 0 < ri * 10000 + x * (10000 - 30) := by positivity
    have h1 : ¬ (ri * 10000 + x * (10000 - 30) = 0) := by omega
    have h2 : ¬ (x * (10000 - 30) * ro = I128_MIN ∧ ri * 10000 + x * (10000 - 30) = -1) := by
      intro ⟨_, hc⟩
      omega
    simp only [h1, h2, if_false]
    rw [hv]
  · intro h
    obtain ⟨hao, hri, hro, hor, hfm, hrp, hnum, hrd, hden, hd, hplus, hw⟩ := gai_ok_elim h
    simp only [Option.getD_none] at hrp hnum hrd hden hd hplus hw
    unfold AMM.Math.get_amount_in
    simp only [AMM.Math.FEE_DENOMINATOR, AMM.Math.FEE_BPS]
    have han : ¬ ao ≤ 0 := by omega
    have hrn : ¬ (ri ≤ 0 ∨ ro ≤ 0) := by omega
    have hcap : ¬ ro ≤ ao := by omega
    simp only [han, hrn, hcap, if_false]
    rw [wrap128_eq_self hrp, wrap128_eq_self hnum, wrap128_eq_self hrd,
        wrap128_eq_self hden]
    unfold AMM.Math.rustDiv
    have hVpos : 0 < (ro - ao) * (10000 - 30) := by
      have : 0 < ro - ao := by omega
      positivity
    have h1 : ¬ ((ro - ao) * (10000 - 30) = 0) := by omega
    have h2 : ¬ (ri * ao * 10000 = I128_MIN ∧ (ro - ao) * (10000 - 30) = -1) := by
      intro ⟨_, hc⟩
      omega
    simp only [h1, h2, if_false]
    rw [wrap128_eq_self hplus, hw]

/-- Witness for C10 at the repository's standard test point. -/
theorem C10_legacy_matches_v2_witness :
    AMM.Math.get_amount_out 1000000 10000000 10000000 = .ok 906610
  ∧ AMM.Math.get_amount_in 906610 10000000 10000000 = .ok 999999 :=
  ⟨(C10_legacy_matches_v2 1000000 10000000 10000000 906610 906610 999999).1 (by decide),
   (C10_legacy_matches_v2 1000000 10000000 10000000 906610 906610 999999).2 (by decide)⟩

end ClaimC10

section ClaimC1

/-- Core facts about the legacy `get_amount_out` at the fixed 30-bps fee on
positive in-range inputs: it succeeds with the exact fee-formula quotient,
whose value is nonnegative, below the output reserve, and small enough that
the reserve product strictly grows. -/
theorem legacy_gao_core (x r0 r1 : Int) (hx : 0 < x) (h0 : 0 < r0) (h1 : 0 < r1)
    (hb1 : x * 9970 * r1 ≤ I128_MAX) (hb2 : r0 * 10000 + x * 9970 ≤ I128_MAX) :
    AMM.Math.get_amount_out x r0 r1
      = .ok ((x * 9970 * r1).tdiv (r0 * 10000 + x * 9970))
  ∧ 0 ≤ (x * 9970 * r1).tdiv (r0 * 10000 + x * 9970)
  ∧ (x * 9970 * r1).tdiv (r0 * 10000 + x * 9970) < r1
  ∧ ((x * 9970 * r1).tdiv (r0 * 10000 + x * 9970)) * (r0 + x) < x * r1 := by
  have hawI : inI128 (x * 9970) := by
    constructor
    · unfold I128_MIN
      nlinarith
    · nlinarith
  have hnumI : inI128 (x * 9970 * r1) := by
    constructor
    · unfold I128_MIN
      nlinarith
    · exact hb1
  have hrpI : inI128 (r0 * 10000) := by
    constructor
    · unfold I128_MIN
      nlinarith
    · nlinarith
  have hdenI : inI128 (r0 * 10000 + x * 9970) := by
    constructor
    · unfold I128_MIN
      nlinarith
    · exact hb2
  have hden0 : 0 < r0 * 10000 + x * 9970 := by positivity
  have hnum0 : 0 ≤ x * 9970 * r1 := by positivity
  set num : Int := x * 9970 * r1 with hnumd
  set den : Int := r0 * 10000 + x * 9970 with hdend
  set out : Int := num.tdiv den with houtd
  have houte : out = num / den := by
    rw [houtd, tdiv_eq_ediv_nonneg hnum0 hden0.le]
  have hout0 : 0 ≤ out := by
    rw [houte]
    exact Int.ediv_nonneg hnum0 hden0.le
  have houtden : out * den ≤ num := by
    have hmod0 : 0 ≤ num % den := Int.emod_nonneg num (by omega)
    have halg : den * (num / den) + num % den = num := Int.ediv_add_emod num den
    rw [houte]
    nlinarith
  have heq : AMM.Math.get_amount_out x r0 r1 = .ok out := by
    unfold AMM.Math.get_amount_out
    simp only [AMM.Math.FEE_DENOMINATOR, AMM.Math.FEE_BPS]
    have hxn : ¬ x ≤ 0 := by omega
    have hrn : ¬ (r0 ≤ 0 ∨ r1 ≤ 0) := by omega
    simp only [hxn, hrn, if_false]
    norm_num only
    rw [wrap128_eq_self hawI, wrap128_eq_self hrpI, wrap128_eq_self hnumI,
        wrap128_eq_self hdenI]
    unfold AMM.Math.rustDiv
    have hz : ¬ (den = 0) := by omega
    have hm1 : ¬ (num = I128_MIN ∧ den = -1) := by
      intro ⟨_, hc⟩
      omega
    simp only [hdend, hz, hm1, if_false]
  refine ⟨heq, hout0, ?_, ?_⟩
  · rw [houte]
    rw [Int.ediv_lt_iff_lt_mul hden0]
    nlinarith
  · rcases eq_or_lt_of_le hout0 with hz | hpos
    · rw [← hz]
      simpa using mul_pos hx h1
    · by_contra hcon
      push_neg at hcon
      have hstep : 9970 * (x * r1) ≤ 9970 * (out * (r0 + x)) := by nlinarith
      nlinarith [mul_pos hpos h0]

/-- Reserve-product wrap identities for a swap branch: with positive
reserves, a positive input and an output below the output reserve, all four
release-mode wrapped quantities of `swap` stay inside `i128` and wrapping is
the identity. -/
theorem swap_wrap_facts (r0 r1 x out : Int) (h0 : 0 < r0) (h1 : 0 < r1)
    (hx : 0 < x) (hout0 : 0 ≤ out) (houtlt : out < r1)
    (hb3 : (r0 + x) * r1 ≤ I128_MAX) :
    wrap128 (r0 + x) = r0 + x ∧ wrap128 (r1 - out) = r1 - out ∧
    wrap128 (r0 * r1) = r0 * r1 ∧
    wrap128 ((r0 + x) * (r1 - out)) = (r0 + x) * (r1 - out) := by
  have hminneg : I128_MIN ≤ 0 := by unfold I128_MIN; norm_num
  have hr1max : r1 ≤ I128_MAX :=
    le_trans (le_mul_of_one_le_left h1.le (by omega)) hb3
  have hsummax : r0 + x ≤ I128_MAX :=
    le_trans (le_mul_of_one_le_right (by omega) (by omega)) hb3
  have hI1 : inI128 (r0 + x) := ⟨by omega, hsummax⟩
  have hI2 : inI128 (r1 - out) := ⟨by omega, by omega⟩
  have hI3 : inI128 (r0 * r1) := by
    have hnn : 0 ≤ r0 * r1 := by positivity
    have hub : r0 * r1 ≤ (r0 + x) * r1 :=
      mul_le_mul_of_nonneg_right (by omega) h1.le
    exact ⟨by omega, by omega⟩
  have hI4 : inI128 ((r0 + x) * (r1 - out)) := by
    have hnn : 0 ≤ (r0 + x) * (r1 - out) :=
      mul_nonneg (by omega) (by omega)
    have hub : (r0 + x) * (r1 - out) ≤ (r0 + x) * r1 :=
      mul_le_mul_of_nonneg_left (by omega) (by omega)
    exact ⟨by omega, by omega⟩
  exact ⟨wrap128_eq_self hI1, wrap128_eq_self hI2, wrap128_eq_self hI3,
         wrap128_eq_self hI4⟩

/-- Evaluation of `swap` in the `token_in = token_0` direction on in-range
positive state: everything up to the minimum-output check computes, and the
K check passes. -/
theorem swap_eval_token0 (p : AMM.Pair.PairInfo) (now deadline : Nat) (x m : Int)
    (hdl : ¬ deadline < now) (hx : ¬ x ≤ 0)
    (h0 : 0 < p.reserve_0) (h1 : 0 < p.reserve_1)
    (hb1 : x * 9970 * p.reserve_1 ≤ I128_MAX)
    (hb2 : p.reserve_0 * 10000 + x * 9970 ≤ I128_MAX)
    (hb3 : (p.reserve_0 + x) * p.reserve_1 ≤ I128_MAX) :
    AMM.Pair.swap p now x m p.token_0 deadline
      = if (x * 9970 * p.reserve_1).tdiv (p.reserve_0 * 10000 + x * 9970) < m
        then .error .insufficientOutputAmount
        else .ok ((x * 9970 * p.reserve_1).tdiv (p.reserve_0 * 10000 + x * 9970),
                  ⟨p.token_0, p.token_1, p.factory, p.fee_to,
                   p.reserve_0 + x,
                   p.reserve_1
                     - (x * 9970 * p.reserve_1).tdiv (p.reserve_0 * 10000 + x * 9970),
                   p.total_supply, p.k_last⟩) := by
  have hxp : 0 < x := by omega
  obtain ⟨hgao, hout0, houtlt, hkey⟩ :=
    legacy_gao_core x p.reserve_0 p.reserve_1 hxp h0 h1 hb1 hb2
  obtain ⟨hw1, hw2, hw3, hw4⟩ := swap_wrap_facts p.reserve_0 p.reserve_1 x _
    h0 h1 hxp hout0 houtlt hb3
  have hk : ¬ ((p.reserve_0 + x)
      * (p.reserve_1 - (x * 9970 * p.reserve_1).tdiv (p.reserve_0 * 10000 + x * 9970))
      ≤ p.reserve_0 * p.reserve_1) := by
    push_neg
    nlinarith
  unfold AMM.Pair.swap
  simp only [hdl, hx, eq_self_iff_true, if_true, if_false, hgao,
    hw1, hw2, hw3, hw4, hk]

/-- Evaluation of `swap` in the `token_in = token_1` direction. -/
theorem swap_eval_token1 (p : AMM.Pair.PairInfo) (now deadline : Nat)
    (x m : Int) (tok : Nat)
    (hne : ¬ tok = p.token_0) (htok : tok = p.token_1)
    (hdl : ¬ deadline < now) (hx : ¬ x ≤ 0)
    (h0 : 0 < p.reserve_0) (h1 : 0 < p.reserve_1)
    (hb1 : x * 9970 * p.reserve_0 ≤ I128_MAX)
    (hb2 : p.reserve_1 * 10000 + x * 9970 ≤ I128_MAX)
    (hb3 : (p.reserve_1 + x) * p.reserve_0 ≤ I128_MAX) :
    AMM.Pair.swap p now x m tok deadline
      = if (x * 9970 * p.reserve_0).tdiv (p.reserve_1 * 10000 + x * 9970) < m
        then .error .insufficientOutputAmount
        else .ok ((x * 9970 * p.reserve_0).tdiv (p.reserve_1 * 10000 + x * 9970),
                  ⟨p.token_0, p.token_1, p.factory, p.fee_to,
                   p.reserve_0
                     - (x * 9970 * p.reserve_0).tdiv (p.reserve_1 * 10000 + x * 9970),
                   p.reserve_1 + x,
                   p.total_supply, p.k_last⟩) := by
  have hxp : 0 < x := by omega
  obtain ⟨hgao, hout0, houtlt, hkey⟩ :=
    legacy_gao_core x p.reserve_1 p.reserve_0 hxp h1 h0 hb1 hb2
  obtain ⟨hw1, hw2, hw3, hw4⟩ := swap_wrap_facts p.reserve_1 p.reserve_0 x _
    h1 h0 hxp hout0 houtlt hb3
  have hk : ¬ ((p.reserve_0
      - (x * 9970 * p.reserve_0).tdiv (p.reserve_1 * 10000 + x * 9970))
      * (p.reserve_1 + x)
      ≤ p.reserve_1 * p.reserve_0) := by
    push_neg
    nlinarith
  have hw4c : wrap128 ((p.reserve_0
        - (x * 9970 * p.reserve_0).tdiv (p.reserve_1 * 10000 + x * 9970))
        * (p.reserve_1 + x))
      = (p.reserve_0
        - (x * 9970 * p.reserve_0).tdiv (p.reserve_1 * 10000 + x * 9970))
        * (p.reserve_1 + x) := by
    rw [mul_comm (p.reserve_0
        - (x * 9970 * p.reserve_0).tdiv (p.reserve_1 * 10000 + x * 9970))
      (p.reserve_1 + x)]
    exact hw4
  subst htok
  unfold AMM.Pair.swap
  simp only [hdl, hx, hne, eq_self_iff_true, if_true, if_false, hgao,
    hw1, hw2, hw3, hw4c, hk]

/-- C1 (amended): with the pair's fixed 30-bps fee every in-range swap
strictly increases the reserve product, and an in-range swap whose
minimum-output bound is met succeeds — the swap's inline K check, which
aborts on `k_new ≤ k_old` (equality included), never fires; the standalone
`validate_k_invariant` helper, however, rejects only strict decreases of
the product and accepts equality. -/
theorem C1_swap_k_increases :
    (∀ a b c d : Int, inI128 (a * b) → inI128 (c * d) →
        AMM.Validation.validate_k_invariant a b c d
          = if c * d < a * b then .error .KInvariantViolated else .ok ())
  ∧ (∀ (p : AMM.Pair.PairInfo) (now deadline : Nat) (x m : Int) (tok : Nat)
        (out : Int) (p1 : AMM.Pair.PairInfo),
        0 < p.reserve_0 → 0 < p.reserve_1 →
        x * 9970 * p.reserve_0 ≤ I128_MAX → x * 9970 * p.reserve_1 ≤ I128_MAX →
        p.reserve_0 * 10000 + x * 9970 ≤ I128_MAX →
        p.reserve_1 * 10000 + x * 9970 ≤ I128_MAX →
        (p.reserve_0 + x) * p.reserve_1 ≤ I128_MAX →
        (p.reserve_1 + x) * p.reserve_0 ≤ I128_MAX →
        AMM.Pair.swap p now x m tok deadline = .ok (out, p1) →
        p.reserve_0 * p.reserve_1 < p1.reserve_0 * p1.reserve_1)
  ∧ (∀ (p : AMM.Pair.PairInfo) (now deadline : Nat) (x m : Int),
        now ≤ deadline → 0 < x → 0 < p.reserve_0 → 0 < p.reserve_1 →
        x * 9970 * p.reserve_1 ≤ I128_MAX →
        p.reserve_0 * 10000 + x * 9970 ≤ I128_MAX →
        (p.reserve_0 + x) * p.reserve_1 ≤ I128_MAX →
        m ≤ (x * 9970 * p.reserve_1).tdiv (p.reserve_0 * 10000 + x * 9970) →
        AMM.Pair.swap p now x m p.token_0 deadline
          = .ok ((x * 9970 * p.reserve_1).tdiv (p.reserve_0 * 10000 + x * 9970),
                 ⟨p.token_0, p.token_1, p.factory, p.fee_to,
                  p.reserve_0 + x,
                  p.reserve_1
                    - (x * 9970 * p.reserve_1).tdiv (p.reserve_0 * 10000 + x * 9970),
                  p.total_supply, p.k_last⟩)
        ∧ p.reserve_0 * p.reserve_1
            < (p.reserve_0 + x)
              * (p.reserve_1
                 - (x * 9970 * p.reserve_1).tdiv (p.reserve_0 * 10000 + x * 9970))) := by
  refine ⟨?_, ?_, ?_⟩
  · intro a b c d hab hcd
    unfold AMM.Validation.validate_k_invariant
    rw [checked_mul_of_inI128 hab, checked_mul_of_inI128 hcd]
    simp only [okOr]
  · intro p now deadline x m tok out p1 h0 h1 hb1a hb1b hb2a hb2b hb3a hb3b h
    by_cases hdl : deadline < now
    · unfold AMM.Pair.swap at h
      rw [if_pos hdl] at h
      simp at h
    by_cases hx : x ≤ 0
    · unfold AMM.Pair.swap at h
      rw [if_neg hdl, if_pos hx] at h
      simp at h
    by_cases ht0 : tok = p.token_0
    · subst ht0
      rw [swap_eval_token0 p now deadline x m hdl hx h0 h1 hb1b hb2a hb3a] at h
      split at h
      · simp at h
      cases h
      simp only
      obtain ⟨hgao, hout0, houtlt, hkey⟩ :=
        legacy_gao_core x p.reserve_0 p.reserve_1 (by omega) h0 h1 hb1b hb2a
      nlinarith
    by_cases ht1 : tok = p.token_1
    · rw [swap_eval_token1 p now deadline x m tok ht0 ht1 hdl hx h0 h1 hb1a hb2b hb3b] at h
      split at h
      · simp at h
      cases h
      simp only
      obtain ⟨hgao, hout0, houtlt, hkey⟩ :=
        legacy_gao_core x p.reserve_1 p.reserve_0 (by omega) h1 h0 hb1a hb2b
      nlinarith
    · unfold AMM.Pair.swap at h
      rw [if_neg hdl, if_neg hx, if_neg ht0, if_neg ht1] at h
      simp at h
  · intro p now deadline x m hdl hx h0 h1 hb1 hb2 hb3 hm
    have g1 : ¬ deadline < now := by omega
    have g2 : ¬ x ≤ 0 := by omega
    have g3 : ¬ ((x * 9970 * p.reserve_1).tdiv (p.reserve_0 * 10000 + x * 9970) < m) := by
      omega
    obtain ⟨hgao, hout0, houtlt, hkey⟩ :=
      legacy_gao_core x p.reserve_0 p.reserve_1 hx h0 h1 hb1 hb2
    refine ⟨?_, by nlinarith⟩
    rw [swap_eval_token0 p now deadline x m g1 g2 h0 h1 hb1 hb2 hb3, if_neg g3]

/-- C1 counterexample: `validate_k_invariant` accepts an unchanged product
(`k_after = k_before`), so equality is not a hard failure in the cited
validator. -/
theorem C1_counterexample :
    AMM.Validation.validate_k_invariant 1000 1000 1000 1000 = .ok () := by decide

/-- Witness for C1 on a concrete pool. -/
theorem C1_swap_k_increases_witness :
    AMM.Pair.swap ⟨1, 2, 3, 4, 1000000, 1000000, 5000, 0⟩ 5 1000 0 1 10
      = .ok (((1000 : Int) * 9970 * 1000000).tdiv (1000000 * 10000 + 1000 * 9970),
             ⟨1, 2, 3, 4, 1000000 + 1000,
              1000000 - ((1000 : Int) * 9970 * 1000000).tdiv (1000000 * 10000 + 1000 * 9970),
              5000, 0⟩)
    ∧ (1000000 : Int) * 1000000
        < (1000000 + 1000)
          * (1000000 - ((1000 : Int) * 9970 * 1000000).tdiv (1000000 * 10000 + 1000 * 9970)) :=
  C1_swap_k_increases.2.2 ⟨1, 2, 3, 4, 1000000, 1000000, 5000, 0⟩ 5 10 1000 0
    (by decide) (by decide) (by decide) (by decide) (by decide) (by decide)
    (by decide) (by decide)

end ClaimC1

section ClaimC8

/-- C8: in the multi-shape bonding curve, for `0 < amount ≤
circulatingSupply` the sell payout is the shape-specific pre-penalty payout
minus `floor(payout * sellPenaltyBps / 10000)` (uniformly over Linear,
Exponential and Sigmoid), while a successful buy returns the raw quotient
`amount * 10^7 / spotPrice` with no penalty term, for every shape. -/
theorem C8_sell_penalty_buy_unpenalized :
    (∀ (c : TF.BondingCurveV2) (amt pre : Int),
        0 < amt → amt ≤ c.circulating_supply →
        c.sell_before_penalty amt = .ok pre →
        0 ≤ pre → pre ≤ I128_MAX → 0 ≤ c.sell_penalty_bps →
        pre * c.sell_penalty_bps ≤ I128_MAX →
        c.calculate_sell_amount amt = .ok (pre - pre * c.sell_penalty_bps / 10000))
  ∧ (∀ (c : TF.BondingCurveV2) (amt v : Int),
        c.calculate_buy_amount amt = .ok v →
        v = (amt * 10000000).tdiv c.get_current_price) := by
  constructor
  · intro c amt pre hamt hcirc hpre hpre0 hpremax hbps hmul
    have hminneg : I128_MIN ≤ 0 := by unfold I128_MIN; norm_num
    have hmulI : inI128 (pre * c.sell_penalty_bps) := by
      have : 0 ≤ pre * c.sell_penalty_bps := mul_nonneg hpre0 hbps
      exact ⟨by omega, hmul⟩
    set t : Int := pre * c.sell_penalty_bps with htd
    have ht0 : 0 ≤ t := mul_nonneg hpre0 hbps
    have hpen : t.tdiv 10000 = t / 10000 := tdiv_eq_ediv_nonneg ht0 (by norm_num)
    have hpen0 : 0 ≤ t / 10000 := Int.ediv_nonneg ht0 (by norm_num)
    have hpenmax : t / 10000 ≤ I128_MAX :=
      le_trans (Int.ediv_le_self 10000 ht0) hmul
    have hrel : I128_MIN + I128_MAX = -1 := by unfold I128_MIN I128_MAX; norm_num
    have hsubI : inI128 (pre - t / 10000) := ⟨by omega, by omega⟩
    unfold TF.BondingCurveV2.calculate_sell_amount
    have g1 : ¬ amt ≤ 0 := by omega
    have g2 : ¬ c.circulating_supply < amt := by omega
    simp only [g1, g2, if_false, hpre]
    rw [checked_mul_of_inI128 hmulI]
    simp only [okOr]
    rw [checked_div_pos (by norm_num)]
    simp only [okOr, hpen]
    rw [checked_sub_of_inI128 hsubI]
  · intro c amt v h
    unfold TF.BondingCurveV2.calculate_buy_amount at h
    split at h
    · simp at h
    split at h
    all_goals
      first
      | (unfold TF.BondingCurveV2.calculate_buy_linear at h
         split at h
         · simp at h
         rename_i t ht
         rw [okOr_eq_ok, checked_mul_eq_some] at ht
         rw [okOr_eq_ok, checked_div_eq_some] at h
         obtain ⟨_, _, hv⟩ := h
         rw [hv, ht.2])
      | (unfold TF.BondingCurveV2.calculate_buy_exponential at h
         split at h
         · simp at h
         rename_i t ht
         rw [okOr_eq_ok, checked_mul_eq_some] at ht
         rw [okOr_eq_ok, checked_div_eq_some] at h
         obtain ⟨_, _, hv⟩ := h
         rw [hv, ht.2])
      | (unfold TF.BondingCurveV2.calculate_buy_sigmoid at h
         split at h
         · simp at h
         rename_i t ht
         rw [okOr_eq_ok, checked_mul_eq_some] at ht
         rw [okOr_eq_ok, checked_div_eq_some] at h
         obtain ⟨_, _, hv⟩ := h
         rw [hv, ht.2])

/-- Witness for C8 on a concrete linear curve (spot price 200 stroops). -/
theorem C8_sell_penalty_buy_unpenalized_witness :
    (⟨.Linear, 100000, 1000000000, 100, 1000000000, 10000000, 200⟩ :
        TF.BondingCurveV2).calculate_sell_amount 50000
      = .ok (1 - 1 * 200 / 10000)
  ∧ (500000000000 : Int)
      = ((10000000 : Int) * 10000000).tdiv
        (⟨.Linear, 100000, 1000000000, 100, 1000000000, 10000000, 200⟩ :
          TF.BondingCurveV2).get_current_price :=
  ⟨C8_sell_penalty_buy_unpenalized.1
      ⟨.Linear, 100000, 1000000000, 100, 1000000000, 10000000, 200⟩ 50000 1
      (by decide) (by decide) (by decide) (by decide) (by decide) (by decide)
      (by decide),
   C8_sell_penalty_buy_unpenalized.2
      ⟨.Linear, 100000, 1000000000, 100, 1000000000, 10000000, 200⟩ 10000000
      500000000000 (by decide)⟩

end ClaimC8

section ClaimC4

theorem findOldest_nil (start : AMM.PriceObservation) (target : Nat) :
    AMM.findOldest start [] target = start := rfl

theorem findOldest_cons (start a : AMM.PriceObservation)
    (l : List AMM.PriceObservation) (target : Nat) :
    AMM.findOldest start (a :: l) target
      = AMM.findOldest
          (if a.timestamp ≤ target ∧ start.timestamp < a.timestamp then a else start)
          l target := rfl

/-- The scan of `get_twap` never decreases the candidate's timestamp. -/
theorem findOldest_ts_mono (l : List AMM.PriceObservation)
    (start : AMM.PriceObservation) (target : Nat) :
    start.timestamp ≤ (AMM.findOldest start l target).timestamp := by
  induction l generalizing start with
  | nil => exact le_refl _
  | cons a l ih =>
    rw [findOldest_cons]
    refine le_trans ?_ (ih _)
    split
    · rename_i hc
      omega
    · exact le_refl _

/-- The scan of `get_twap` returns its start or a list member whose
timestamp is at most the target. -/
theorem findOldest_mem (l : List AMM.PriceObservation)
    (start : AMM.PriceObservation) (target : Nat) :
    AMM.findOldest start l target = start
    ∨ (AMM.findOldest start l target ∈ l
       ∧ (AMM.findOldest start l target).timestamp ≤ target) := by
  induction l generalizing start with
  | nil => exact Or.inl rfl
  | cons a l ih =>
    rw [findOldest_cons]
    rcases ih (if a.timestamp ≤ target ∧ start.timestamp < a.timestamp then a else start)
      with h | ⟨h1, h2⟩
    · rw [h]
      split
      · rename_i hc
        exact Or.inr ⟨List.mem_cons_self a l, hc.1⟩
      · exact Or.inl rfl
    · exact Or.inr ⟨List.mem_cons_of_mem a h1, h2⟩

/-- The scan of `get_twap` dominates every list member whose timestamp is
at most the target. -/
theorem findOldest_dominates (l : List AMM.PriceObservation) (target : Nat)
    (g : AMM.PriceObservation) (hgt : g.timestamp ≤ target) :
    ∀ start, g ∈ l →
      g.timestamp ≤ (AMM.findOldest start l target).timestamp := by
  induction l with
  | nil =>
    intro start hg
    cases hg
  | cons a l ih =>
    intro start hg
    rw [findOldest_cons]
    rcases List.mem_cons.mp hg with h | h
    · subst h
      split
      · rename_i hc
        exact findOldest_ts_mono l g target
      · rename_i hc
        have hgs : g.timestamp ≤ start.timestamp := by
          rcases Decidable.not_and_iff_or_not.mp hc with h1 | h2
          · omega
          · omega
        exact le_trans hgs (findOldest_ts_mono l start target)
    · exact ih _ h

/-- C4 (amended): `getTwap` fails with `InvalidAmount` (not
`OracleWindowUnavailable`, which does not exist in the error enum) when
`secondsAgo = 0`, with `Underflow` when the window reaches before time 0,
and with `InsufficientLiquidity` when the scan's selected observation has
timestamp 0; the scan starts from `observations[0]` and picks the
observation with the largest timestamp `≤ target` that beats
`observations[0]`, falling back to `observations[0]` itself — even when its
timestamp exceeds the target — and on success returns the truncated
quotient of the cumulative-price delta by the elapsed time of the selected
observation. -/
theorem C4_get_twap_spec :
    (∀ (o : AMM.Oracle) (s : Nat), s = 0 →
        AMM.Oracle.get_twap o s = .error .InvalidAmount)
  ∧ (∀ (o : AMM.Oracle) (s : Nat), s ≠ 0 →
        o.last_observation.timestamp < s →
        AMM.Oracle.get_twap o s = .error .Underflow)
  ∧ (∀ (o : AMM.Oracle) (s : Nat), s ≠ 0 →
        s ≤ o.last_observation.timestamp →
        (AMM.findOldest (o.observations.headD ⟨0, 0, 0⟩) o.observations
            (o.last_observation.timestamp - s)).timestamp = 0 →
        AMM.Oracle.get_twap o s = .error .InsufficientLiquidity)
  ∧ (∀ (o : AMM.Oracle) (s : Nat) (v : Int),
        AMM.Oracle.get_twap o s = .ok v →
        s ≠ 0 ∧ s ≤ o.last_observation.timestamp ∧
        ∃ f : AMM.PriceObservation,
          (f = o.observations.headD ⟨0, 0, 0⟩
             ∨ (f ∈ o.observations
                ∧ f.timestamp ≤ o.last_observation.timestamp - s))
          ∧ (∀ g ∈ o.observations,
              g.timestamp ≤ o.last_observation.timestamp - s →
              g.timestamp ≤ f.timestamp)
          ∧ f.timestamp ≠ 0
          ∧ f.timestamp < o.last_observation.timestamp
          ∧ v = (o.last_observation.price_0_cumulative - f.price_0_cumulative).tdiv
                  ((o.last_observation.timestamp - f.timestamp : Nat) : Int)) := by
  refine ⟨?_, ?_, ?_, ?_⟩
  · intro o s hs
    unfold AMM.Oracle.get_twap
    simp [hs]
  · intro o s hs hlt
    unfold AMM.Oracle.get_twap
    have h1 : ¬ s = 0 := hs
    have h2 : AMM.checked_sub_u64 o.last_observation.timestamp s = none := by
      unfold AMM.checked_sub_u64
      simp only [ite_eq_right_iff]
      omega
    simp only [h1, if_false, h2, okOr]
  · intro o s hs hle hzero
    unfold AMM.Oracle.get_twap
    have h2 : AMM.checked_sub_u64 o.last_observation.timestamp s
        = some (o.last_observation.timestamp - s) := by
      unfold AMM.checked_sub_u64
      simp [hle]
    simp only [hs, if_false, h2, okOr, hzero, if_true]
  · intro o s v h
    unfold AMM.Oracle.get_twap at h
    split at h
    · simp at h
    rename_i hs
    split at h
    · simp at h
    rename_i target htar
    rw [okOr_eq_ok] at htar
    unfold AMM.checked_sub_u64 at htar
    split at htar
    · rename_i hle
      cases htar
      refine ⟨hs, hle, ?_⟩
      simp only [] at h
      split at h
      · simp at h
      rename_i hfz
      split at h
      · simp at h
      rename_i e he
      rw [okOr_eq_ok] at he
      unfold AMM.checked_sub_u64 at he
      split at he
      · rename_i hfle
        cases he
        split at h
        · simp at h
        rename_i hez
        split at h
        · simp at h
        rename_i delta hdelta
        rw [okOr_eq_ok, checked_sub_eq_some] at hdelta
        rw [okOr_eq_ok, checked_div_eq_some] at h
        obtain ⟨_, _, hv⟩ := h
        refine ⟨AMM.findOldest (o.observations.headD ⟨0, 0, 0⟩) o.observations
          (o.last_observation.timestamp - s), ?_, ?_, hfz, by omega, ?_⟩
        · exact findOldest_mem o.observations (o.observations.headD ⟨0, 0, 0⟩)
            (o.last_observation.timestamp - s)
        · intro g hgmem hgt
          exact findOldest_dominates o.observations
            (o.last_observation.timestamp - s) g hgt
            (o.observations.headD ⟨0, 0, 0⟩) hgmem
        · rw [hv, hdelta.2]
      · simp at he
    · simp at htar

/-- C4 counterexample: a wrapped two-observation buffer where no
observation is as old as the requested window, yet `getTwap` succeeds with
a value computed from `observations[0]` — contradicting both the claimed
failure (`OracleWindowUnavailable`) and the claimed selection rule. -/
theorem C4_counterexample :
    AMM.Oracle.get_twap
      { last_observation := ⟨200, 3000, 0⟩,
        observations := [⟨100, 1000, 0⟩, ⟨200, 3000, 0⟩, ⟨0, 0, 0⟩, ⟨0, 0, 0⟩,
                         ⟨0, 0, 0⟩, ⟨0, 0, 0⟩, ⟨0, 0, 0⟩, ⟨0, 0, 0⟩],
        index := 2 } 150 = .ok 20
  ∧ (∀ ob ∈ ([⟨100, 1000, 0⟩, ⟨200, 3000, 0⟩, ⟨0, 0, 0⟩, ⟨0, 0, 0⟩,
              ⟨0, 0, 0⟩, ⟨0, 0, 0⟩, ⟨0, 0, 0⟩, ⟨0, 0, 0⟩] :
              List AMM.PriceObservation),
        ob.timestamp ≤ 200 - 150 → ob.timestamp = 0)
  ∧ (20 : Int) ≠ ((3000 : Int) - 0).tdiv (200 - 0) := by
  refine ⟨by decide, by decide, by decide⟩

/-- Witness for C4 at concrete states. -/
theorem C4_get_twap_spec_witness :
    AMM.Oracle.get_twap AMM.Oracle.new 0 = .error .InvalidAmount
  ∧ ((150 : Nat) ≠ 0 ∧ (150 : Nat) ≤ 200 ∧
     ∃ f : AMM.PriceObservation,
       (f = ([⟨100, 1000, 0⟩, ⟨200, 3000, 0⟩, ⟨0, 0, 0⟩, ⟨0, 0, 0⟩,
              ⟨0, 0, 0⟩, ⟨0, 0, 0⟩, ⟨0, 0, 0⟩, ⟨0, 0, 0⟩] :
              List AMM.PriceObservation).headD ⟨0, 0, 0⟩
          ∨ (f ∈ ([⟨100, 1000, 0⟩, ⟨200, 3000, 0⟩, ⟨0, 0, 0⟩, ⟨0, 0, 0⟩,
                   ⟨0, 0, 0⟩, ⟨0, 0, 0⟩, ⟨0, 0, 0⟩, ⟨0, 0, 0⟩] :
                   List AMM.PriceObservation)
             ∧ f.timestamp ≤ 200 - 150))
       ∧ (∀ g ∈ ([⟨100, 1000, 0⟩, ⟨200, 3000, 0⟩, ⟨0, 0, 0⟩, ⟨0, 0, 0⟩,
                  ⟨0, 0, 0⟩, ⟨0, 0, 0⟩, ⟨0, 0, 0⟩, ⟨0, 0, 0⟩] :
                  List AMM.PriceObservation),
           g.timestamp ≤ 200 - 150 → g.timestamp ≤ f.timestamp)
       ∧ f.timestamp ≠ 0 ∧ f.timestamp < 200
       ∧ (20 : Int) = ((3000 : Int) - f.price_0_cumulative).tdiv
           ((200 - f.timestamp : Nat) : Int)) :=
  ⟨C4_get_twap_spec.1 AMM.Oracle.new 0 rfl,
   C4_get_twap_spec.2.2.2
     { last_observation := ⟨200, 3000, 0⟩,
       observations := [⟨100, 1000, 0⟩, ⟨200, 3000, 0⟩, ⟨0, 0, 0⟩, ⟨0, 0, 0⟩,
                        ⟨0, 0, 0⟩, ⟨0, 0, 0⟩, ⟨0, 0, 0⟩, ⟨0, 0, 0⟩],
       index := 2 } 150 20 (by decide)⟩

end ClaimC4

section ClaimC5

/-- Integer AM-GM: one Newton step from any positive `x` lands at or above
`√y`. -/
theorem sqrt_am_gm (y x : Nat) (hx : 0 < x) :
    Nat.sqrt y ≤ (y / x + x) / 2 := by
  set s := Nat.sqrt y with hsd
  have hs2 : s * s ≤ y := Nat.sqrt_le y
  by_cases h2 : 2 * s ≤ y / x + x
  · rw [Nat.le_div_iff_mul_le (by norm_num : 0 < 2)]
    omega
  · exfalso
    push_neg at h2
    have hdm : x * (y / x) + y % x = y := Nat.div_add_mod y x
    have hmod : y % x < x := Nat.mod_lt y hx
    have hxq : (x : Int) * ((y : Nat) / x : Nat) ≥ (y : Int) - x + 1 := by
      omega
    have h2i : ((y / x : Nat) : Int) + x ≤ 2 * s - 1 := by
      omega
    nlinarith [sq_nonneg ((s : Int) - (x : Int)),
      mul_le_mul_of_nonneg_left h2i (by positivity : (0 : Int) ≤ (x : Int))]

/-- A Newton step from above the root strictly decreases. -/
theorem sqrt_newton_lt (y x : Nat) (hx : Nat.sqrt y < x) :
    (y / x + x) / 2 < x := by
  have hx0 : 0 < x := by omega
  have hyx : y < x * x := by
    have := Nat.sqrt_lt'.mp (by omega : Nat.sqrt y < x)
    nlinarith [this]
  have hdiv : y / x < x := (Nat.div_lt_iff_lt_mul hx0).mpr hyx
  rw [Nat.div_lt_iff_lt_mul (by norm_num : 0 < 2)]
  omega

/-- At or above the root the quotient `y / x` is at most `√y + 2`. -/
theorem sqrt_div_le (y x : Nat) (hsx : Nat.sqrt y ≤ x) (_hx : 0 < x)
    (hs1 : 1 ≤ Nat.sqrt y) : y / x ≤ Nat.sqrt y + 2 := by
  have hlt : y < (Nat.sqrt y + 1) * (Nat.sqrt y + 1) := by
    have h := Nat.lt_succ_sqrt y
    simpa [Nat.succ_eq_add_one] using h
  have hexp : (Nat.sqrt y + 1) * (Nat.sqrt y + 1)
      = Nat.sqrt y * (Nat.sqrt y + 2) + 1 := by ring
  have hy : y ≤ Nat.sqrt y * (Nat.sqrt y + 2) := by
    rw [hexp] at hlt
    omega
  calc y / x ≤ y / Nat.sqrt y := Nat.div_le_div_left hsx (by omega)
  _ ≤ (Nat.sqrt y * (Nat.sqrt y + 2)) / Nat.sqrt y := Nat.div_le_div_right hy
  _ = Nat.sqrt y + 2 := Nat.mul_div_cancel_left (Nat.sqrt y + 2) (by omega)

/-- The Babylonian seed `y/2 + 1` is at or above the root. -/
theorem sqrt_le_half_add_one (y : Nat) : Nat.sqrt y ≤ y / 2 + 1 := by
  set s := Nat.sqrt y with hsd
  have hs2 : s * s ≤ y := Nat.sqrt_le y
  have h1 : 2 * s ≤ y + 2 := by nlinarith [sq_nonneg ((s : Int) - 1)]
  omega

/-- Correctness of the `math_v2.rs` square-root loop, by strong induction
on the decreasing iterate: started at or above the root (and at most the
seed), it terminates at exactly `√y` and never overflows. -/
theorem sqrtLoop_run (y : Nat) (hy : y ≤ I128MAXn) :
    ∀ x, 1 ≤ Nat.sqrt y → Nat.sqrt y ≤ x → x ≤ y / 2 + 1 →
    ∀ z, x < z → AMM.MathV2.sqrtLoop y x z = .ok (Nat.sqrt y) := by
  intro x
  induction x using Nat.strong_induction_on with
  | _ x ih =>
    intro hs1 hsx hxb z hxz
    have hx0 : 0 < x := by omega
    have hsmall : Nat.sqrt y < 2 ^ 64 := by
      rw [Nat.sqrt_lt']
      calc y ≤ I128MAXn := hy
      _ < (2 ^ 64) ^ 2 := by norm_num [I128MAXn]
    have hq : y / x ≤ Nat.sqrt y + 2 := sqrt_div_le y x hsx hx0 hs1
    have hov : y / x + x ≤ I128MAXn := by
      unfold I128MAXn at *
      omega
    have hnext : Nat.sqrt y ≤ (y / x + x) / 2 := sqrt_am_gm y x hx0
    unfold AMM.MathV2.sqrtLoop
    rw [dif_pos hxz, if_neg (by omega : ¬ x = 0)]
    simp only []
    rw [if_pos hov]
    rcases eq_or_lt_of_le hsx with heq | hlt
    · unfold AMM.MathV2.sqrtLoop
      rw [dif_neg (by omega : ¬ (y / x + x) / 2 < x)]
      rw [heq]
    · have hdec : (y / x + x) / 2 < x := sqrt_newton_lt y x hlt
      exact ih _ hdec hs1 hnext (by omega) x hdec

/-- Correctness of the sac-factory square-root loop (the same Newton
iteration with the step operands added in the opposite order). -/
theorem sacLoop_run (y : Nat) (hy : y ≤ I128MAXn) :
    ∀ x, 1 ≤ Nat.sqrt y → Nat.sqrt y ≤ x → x ≤ y / 2 + 1 →
    ∀ z, x < z → SAC.Math.sqrtLoop y x z = .ok (Nat.sqrt y) := by
  intro x
  induction x using Nat.strong_induction_on with
  | _ x ih =>
    intro hs1 hsx hxb z hxz
    have hx0 : 0 < x := by omega
    have hsmall : Nat.sqrt y < 2 ^ 64 := by
      rw [Nat.sqrt_lt']
      calc y ≤ I128MAXn := hy
      _ < (2 ^ 64) ^ 2 := by norm_num [I128MAXn]
    have hq : y / x ≤ Nat.sqrt y + 2 := sqrt_div_le y x hsx hx0 hs1
    have hov : x + y / x ≤ I128MAXn := by
      unfold I128MAXn at *
      omega
    have hnext : Nat.sqrt y ≤ (x + y / x) / 2 := by
      rw [Nat.add_comm]
      exact sqrt_am_gm y x hx0
    unfold SAC.Math.sqrtLoop
    rw [dif_pos hxz, if_neg (by omega : ¬ x = 0)]
    simp only []
    rw [if_pos hov]
    rcases eq_or_lt_of_le hsx with heq | hlt
    · unfold SAC.Math.sqrtLoop
      rw [dif_neg (by omega : ¬ (x + y / x) / 2 < x)]
      rw [heq]
    · have hdec : (x + y / x) / 2 < x := by
        rw [Nat.add_comm]
        exact sqrt_newton_lt y x hlt
      exact ih _ hdec hs1 hnext (by omega) x hdec

/-- C5: both cited square-root implementations reject negative input, and
return the floor square root on every in-range nonnegative input — except
that the sac-factory version, which lacks the `0 < y < 4` special case,
returns `2` at `y = 2` (the floor square root is `1`). -/
theorem C5_integer_sqrt (y : Int) :
    (0 ≤ y → y ≤ I128_MAX →
        ∃ r : Int, AMM.MathV2.sqrt y = .ok r ∧ 0 ≤ r ∧ r * r ≤ y
          ∧ y < (r + 1) * (r + 1))
  ∧ (y < 0 → AMM.MathV2.sqrt y = .error .InvalidAmount)
  ∧ (0 ≤ y → y ≤ I128_MAX → y ≠ 2 →
        ∃ r : Int, SAC.Math.sqrt y = .ok r ∧ 0 ≤ r ∧ r * r ≤ y
          ∧ y < (r + 1) * (r + 1))
  ∧ (y < 0 → SAC.Math.sqrt y = .error .InvalidAmount)
  ∧ SAC.Math.sqrt 2 = .ok 2 := by
  have hnat : ∀ n : Nat, 4 ≤ n → n ≤ I128MAXn →
      AMM.MathV2.sqrtLoop n (n / 2 + 1) n = .ok (Nat.sqrt n) := by
    intro n h4 hmax
    have hs1 : 1 ≤ Nat.sqrt n := Nat.le_sqrt.mpr (by omega)
    exact sqrtLoop_run n hmax (n / 2 + 1) hs1 (sqrt_le_half_add_one n)
      (le_refl _) n (by omega)
  have hnat2 : ∀ n : Nat, 4 ≤ n → n ≤ I128MAXn →
      SAC.Math.sqrtLoop n (n / 2 + 1) n = .ok (Nat.sqrt n) := by
    intro n h4 hmax
    have hs1 : 1 ≤ Nat.sqrt n := Nat.le_sqrt.mpr (by omega)
    exact sacLoop_run n hmax (n / 2 + 1) hs1 (sqrt_le_half_add_one n)
      (le_refl _) n (by omega)
  have hbounds : ∀ n : Nat, ((Nat.sqrt n : Int) * (Nat.sqrt n : Int) ≤ (n : Int))
      ∧ ((n : Int) < ((Nat.sqrt n : Int) + 1) * ((Nat.sqrt n : Int) + 1)) := by
    intro n
    constructor
    · exact_mod_cast Nat.sqrt_le n
    · exact_mod_cast Nat.lt_succ_sqrt n
  refine ⟨?_, ?_, ?_, ?_, ?_⟩
  · intro h0 h1
    by_cases h4 : y < 4
    · refine ⟨if y = 0 then 0 else 1, ?_, ?_, ?_, ?_⟩
      · unfold AMM.MathV2.sqrt
        rw [if_neg (by omega), if_pos h4]
      all_goals
        rcases (by omega : y = 0 ∨ y = 1 ∨ y = 2 ∨ y = 3) with h | h | h | h <;>
          simp [h]
    · push_neg at h4
      have hn4 : 4 ≤ y.toNat := by omega
      have hnmax : y.toNat ≤ I128MAXn := by
        unfold I128MAXn
        unfold I128_MAX at h1
        omega
      refine ⟨(Nat.sqrt y.toNat : Int), ?_, by positivity, ?_, ?_⟩
      · unfold AMM.MathV2.sqrt
        rw [if_neg (by omega), if_neg (by omega)]
        rw [hnat y.toNat hn4 hnmax]
      · have := (hbounds y.toNat).1
        rw [Int.toNat_of_nonneg h0] at this
        exact this
      · have := (hbounds y.toNat).2
        rw [Int.toNat_of_nonneg h0] at this
        exact this
  · intro hneg
    unfold AMM.MathV2.sqrt
    rw [if_pos hneg]
  · intro h0 h1 h2
    by_cases h4 : y < 4
    · rcases (by omega : y = 0 ∨ y = 1 ∨ y = 3) with h | h | h
      · refine ⟨0, ?_, by norm_num, by omega, by omega⟩
        rw [h]
        rfl
      · refine ⟨1, ?_, by norm_num, by omega, by omega⟩
        rw [h]
        simp [SAC.Math.sqrt, SAC.Math.sqrtLoop, I128MAXn]
      · refine ⟨1, ?_, by norm_num, by omega, by omega⟩
        rw [h]
        simp [SAC.Math.sqrt, SAC.Math.sqrtLoop, I128MAXn]
    · push_neg at h4
      have hn4 : 4 ≤ y.toNat := by omega
      have hnmax : y.toNat ≤ I128MAXn := by
        unfold I128MAXn
        unfold I128_MAX at h1
        omega
      refine ⟨(Nat.sqrt y.toNat : Int), ?_, by positivity, ?_, ?_⟩
      · unfold SAC.Math.sqrt
        rw [if_neg (by omega), if_neg (by omega)]
        rw [hnat2 y.toNat hn4 hnmax]
      · have := (hbounds y.toNat).1
        rw [Int.toNat_of_nonneg h0] at this
        exact this
      · have := (hbounds y.toNat).2
        rw [Int.toNat_of_nonneg h0] at this
        exact this
  · intro hneg
    unfold SAC.Math.sqrt
    rw [if_pos hneg]
  · simp [SAC.Math.sqrt, SAC.Math.sqrtLoop, I128MAXn]

/-- Witness for C5 at `y = 100` (both implementations yield 10). -/
theorem C5_integer_sqrt_witness :
    (∃ r : Int, AMM.MathV2.sqrt 100 = .ok r ∧ 0 ≤ r ∧ r * r ≤ 100
      ∧ (100 : Int) < (r + 1) * (r + 1))
  ∧ (∃ r : Int, SAC.Math.sqrt 100 = .ok r ∧ 0 ≤ r ∧ r * r ≤ 100
      ∧ (100 : Int) < (r + 1) * (r + 1)) :=
  ⟨(C5_integer_sqrt 100).1 (by decide) (by decide),
   (C5_integer_sqrt 100).2.2.1 (by decide) (by decide) (by decide)⟩

end ClaimC5
